import Mathlib

/-!
  # PeerShare client transfer engine — verification development

  Shallow embedding of the PeerShare client-side transfer engine
  (TypeScript) into Lean 4, together with theorems settling the claims
  about it.

  Modelling conventions:

  * JavaScript numbers are modelled by `JSNum`: `NaN`, `±Infinity`, or a
    finite value taken in `ℚ`.  The IEEE-754 negative zero is not
    distinguished from zero, and finite values are exact rationals (the
    program only performs arithmetic far below the precision limits that
    matter for the claims).
  * Where a code path can only ever see plain finite numbers (the adaptive
    chunk planner, which receives already-normalized inputs), plain `ℚ` is
    used directly.
  * JavaScript runtime values (for fields whose runtime type is checked
    dynamically) are modelled by `JSVal`.
  * Async functions are modelled as pure state-passing functions; the
    durable IndexedDB store is a record of session and chunk lists;
    wall-clock reads (`Date.now()`) become explicit `now` parameters.
  * The SHA-256 branch of `hashArrayBuffer` depends on the external
    `crypto.subtle` collaborator; functions that derive checksums are
    therefore parametrized by the text-hash function, and the deterministic
    FNV-1a fallback from the source is embedded concretely for evaluation.
-/

namespace PeerShare

/-- Model of a JavaScript number: `NaN`, `Infinity`, `-Infinity`, or a
finite value (taken in `ℚ`; `-0` is identified with `0`). -/
inductive JSNum where
  | nan
  | posInf
  | negInf
  | num (q : ℚ)
deriving DecidableEq, Repr

namespace JSNum

/-- `Number.isFinite`. -/
def isFinite : JSNum → Bool
  | num _ => true
  | _ => false

/-- The JavaScript `<=` comparison on numbers (`false` whenever an operand
is `NaN`). -/
def le : JSNum → JSNum → Bool
  | nan, _ => false
  | _, nan => false
  | negInf, _ => true
  | _, posInf => true
  | posInf, _ => false
  | num _, negInf => false
  | num a, num b => decide (a ≤ b)

/-- The JavaScript `<` comparison on numbers (`false` whenever an operand
is `NaN`). -/
def lt : JSNum → JSNum → Bool
  | nan, _ => false
  | _, nan => false
  | negInf, negInf => false
  | negInf, _ => true
  | posInf, _ => false
  | num _, posInf => true
  | num _, negInf => false
  | num a, num b => decide (a < b)

/-- The JavaScript `>=` comparison: `a >= b` holds exactly when `b <= a`
(both are `false` on `NaN`). -/
def ge (a b : JSNum) : Bool := le b a

/-- The JavaScript `===` comparison on numbers: `NaN` is not equal to
itself. -/
def strictEq : JSNum → JSNum → Bool
  | nan, _ => false
  | _, nan => false
  | posInf, posInf => true
  | negInf, negInf => true
  | num a, num b => decide (a = b)
  | _, _ => false

/-- `Math.floor`. -/
def floor : JSNum → JSNum
  | nan => nan
  | posInf => posInf
  | negInf => negInf
  | num q => num (Rat.floor q : ℤ)

/-- `Math.ceil`. -/
def ceil : JSNum → JSNum
  | nan => nan
  | posInf => posInf
  | negInf => negInf
  | num q => num (Rat.ceil q : ℤ)

/-- JavaScript division. -/
def div : JSNum → JSNum → JSNum
  | nan, _ => nan
  | _, nan => nan
  | posInf, posInf => nan
  | posInf, negInf => nan
  | negInf, posInf => nan
  | negInf, negInf => nan
  | posInf, num b => if b < 0 then negInf else posInf
  | negInf, num b => if b < 0 then posInf else negInf
  | num _, posInf => num 0
  | num _, negInf => num 0
  | num a, num b =>
      if b = 0 then (if a = 0 then nan else if 0 < a then posInf else negInf)
      else num (a / b)

/-- JavaScript multiplication. -/
def mul : JSNum → JSNum → JSNum
  | nan, _ => nan
  | _, nan => nan
  | posInf, posInf => posInf
  | posInf, negInf => negInf
  | negInf, posInf => negInf
  | negInf, negInf => posInf
  | posInf, num b => if b = 0 then nan else if 0 < b then posInf else negInf
  | num a, posInf => if a = 0 then nan else if 0 < a then posInf else negInf
  | negInf, num b => if b = 0 then nan else if 0 < b then negInf else posInf
  | num a, negInf => if a = 0 then nan else if 0 < a then negInf else posInf
  | num a, num b => num (a * b)

/-- `Math.max` on two arguments (`NaN` absorbing). -/
def max2 (a b : JSNum) : JSNum :=
  if a = nan ∨ b = nan then nan else if le a b then b else a

/-- `Math.min` on two arguments (`NaN` absorbing). -/
def min2 (a b : JSNum) : JSNum :=
  if a = nan ∨ b = nan then nan else if le a b then a else b

end JSNum

/-- Model of a JavaScript runtime value, for fields whose type the program
checks dynamically. Objects are association lists of fields in insertion
order. -/
inductive JSVal where
  | undef
  | nullV
  | boolV (b : Bool)
  | numV (n : JSNum)
  | strV (s : String)
  | arrV (elems : List JSVal)
  | objV (fields : List (String × JSVal))

namespace JSVal

/-- JavaScript truthiness. -/
def truthy : JSVal → Bool
  | undef => false
  | nullV => false
  | boolV b => b
  | numV JSNum.nan => false
  | numV (JSNum.num q) => decide (q ≠ 0)
  | numV _ => true
  | strV s => decide (s ≠ "")
  | arrV _ => true
  | objV _ => true

/-- `typeof v === "string"`. -/
def isStringV : JSVal → Bool
  | strV _ => true
  | _ => false

/-- `typeof v === "number"`. -/
def isNumberV : JSVal → Bool
  | numV _ => true
  | _ => false

/-- The `isRecord` helper of the structured-event module: a non-null
object that is not an array. -/
def isRecord : JSVal → Bool
  | objV _ => true
  | _ => false

end JSVal

/-- Property read `obj.key` on an object's field list (first binding wins,
`none` for a missing key, i.e. JavaScript `undefined`). -/
def getField (fields : List (String × JSVal)) (key : String) : Option JSVal :=
  (fields.find? (fun p => p.1 == key)).map Prod.snd

/-!
  ## Integrity primitives (src/client/transfer-integrity.ts)

  `calculateTotalChunks`, `bytesForChunkIndex` and `normalizeChunkIndex`
  are embedded over `JSNum` so their behaviour on non-finite inputs is the
  JavaScript one.  The FNV-1a fallback of `hashArrayBuffer` (taken when
  `crypto.subtle` is unavailable) is embedded concretely; SHA-256 lives in
  the external `crypto` collaborator, so checksum-deriving functions are
  parametrized by the text-hash function.
-/

/-- `calculateTotalChunks(fileSize, chunkSize)`: `0` when `chunkSize <= 0`
(JavaScript comparison, so `false` on `NaN`), otherwise
`Math.ceil(fileSize / chunkSize)`. -/
def calculateTotalChunks (fileSize chunkSize : JSNum) : JSNum :=
  if JSNum.le chunkSize (JSNum.num 0) then JSNum.num 0
  else JSNum.ceil (JSNum.div fileSize chunkSize)

/-- `bytesForChunkIndex(chunkIndex, chunkSize, fileSize)`:
`Math.min(Math.max(0, chunkIndex) * Math.max(0, chunkSize), Math.max(0, fileSize))`. -/
def bytesForChunkIndex (chunkIndex chunkSize fileSize : JSNum) : JSNum :=
  let bytes := JSNum.mul (JSNum.max2 (JSNum.num 0) chunkIndex) (JSNum.max2 (JSNum.num 0) chunkSize)
  JSNum.min2 bytes (JSNum.max2 (JSNum.num 0) fileSize)

/-- `normalizeChunkIndex(value, totalChunks)`: `0` for non-finite or
non-positive values, `totalChunks` when `value >= totalChunks`, otherwise
`Math.floor(value)`. -/
def normalizeChunkIndex (value totalChunks : JSNum) : JSNum :=
  if !value.isFinite then JSNum.num 0
  else if JSNum.le value (JSNum.num 0) then JSNum.num 0
  else if JSNum.ge value totalChunks then totalChunks
  else JSNum.floor value

/-- One step of 32-bit FNV-1a: xor in a byte, multiply by the FNV prime,
truncate to 32 bits (`hash = Math.imul(hash, 0x01000193); hash >>>= 0`). -/
def fnv1a32Step (hash byte : ℕ) : ℕ :=
  ((hash ^^^ byte) * 16777619) % 4294967296

/-- `fnv1a32Hex`-style hash value over a byte list, starting from the
FNV-1a offset basis `0x811c9dc5`. -/
def fnv1a32 (bytes : List ℕ) : ℕ :=
  bytes.foldl fnv1a32Step 2166136261

/-- Lowercase hexadecimal digit. -/
def hexDigitChar (n : ℕ) : Char :=
  if n < 10 then Char.ofNat (48 + n) else Char.ofNat (87 + n)

/-- `n.toString(16).padStart(8, "0")` for `n < 2^32`: exactly eight
lowercase hex digits. -/
def toHexPad8 (n : ℕ) : String :=
  String.mk ((List.range 8).map (fun k => hexDigitChar (n / 16 ^ (7 - k) % 16)))

/-- UTF-8 encoding of one character (the `TextEncoder` encoding used by
`hashText`). -/
def utf8EncodeCharNat (c : Char) : List ℕ :=
  let n := c.toNat
  if n < 128 then [n]
  else if n < 2048 then [192 + n / 64, 128 + n % 64]
  else if n < 65536 then [224 + n / 4096, 128 + n / 64 % 64, 128 + n % 64]
  else [240 + n / 262144, 128 + n / 4096 % 64, 128 + n / 64 % 64, 128 + n % 64]

/-- UTF-8 byte sequence of a string. -/
def utf8Bytes (s : String) : List ℕ :=
  (s.data.map utf8EncodeCharNat).flatten

/-- The deterministic fallback of `hashText`: FNV-1a over the UTF-8 bytes,
rendered as 8 lowercase hex digits.  (The SHA-256 branch depends on the
external `crypto.subtle` collaborator and is abstracted by parametrizing
over the hash function.) -/
def fnvHashText (s : String) : String :=
  toHexPad8 (fnv1a32 (utf8Bytes s))

/-- `deriveFileChecksumFromChunkChecksums(chunkChecksums)`: hash of the
chunk-checksum list joined by a newline, for a given text-hash function. -/
def deriveFileChecksumFromChunkChecksums (hashText : String → String)
    (chunkChecksums : List String) : String :=
  hashText (String.intercalate "\n" chunkChecksums)

/-!
  ## Adaptive chunk planner (src/client/adaptive-chunk.ts)

  All inputs here are plain numbers already produced by normalization
  helpers, so this section is embedded over finite numbers (`ℚ`), with
  `Option ℚ` for the nullable RTT sample and message limit.  The JavaScript
  truthiness test `!maxMessageSize` is `true` for `null` and for `0`, which
  the embedding reproduces.
-/

/-- `MIN_CHUNK_SIZE_BYTES` (16 KiB). -/
def MIN_CHUNK_SIZE_BYTES : ℚ := 16384

/-- `CHUNK_SIZE_STEP_BYTES` (4 KiB). -/
def CHUNK_SIZE_STEP_BYTES : ℚ := 4096

/-- `MESSAGE_OVERHEAD_BYTES` (1 KiB). -/
def MESSAGE_OVERHEAD_BYTES : ℚ := 1024

/-- `roundChunkSize(value)`: round down to a 4 KiB multiple, floor at
16 KiB. -/
def roundChunkSize (value : ℚ) : ℚ :=
  max MIN_CHUNK_SIZE_BYTES ((Rat.floor (value / CHUNK_SIZE_STEP_BYTES) * 4096 : ℤ) : ℚ)

/-- `clampChunkSizeByMaxMessageSize(desiredChunkSize, maxMessageSize)`.
The guard `if (!maxMessageSize)` skips the clamp for `null` and for `0`. -/
def clampChunkSizeByMaxMessageSize (desiredChunkSize : ℚ)
    (maxMessageSize : Option ℚ) : ℚ :=
  let desired := roundChunkSize desiredChunkSize
  match maxMessageSize with
  | none => desired
  | some m =>
      if m = 0 then desired
      else
        let safeLimit := max MIN_CHUNK_SIZE_BYTES (m - MESSAGE_OVERHEAD_BYTES)
        min desired (roundChunkSize safeLimit)

/-- `chooseChunkSizeByRtt(baseChunkSize, rttMs)`: the RTT-tiered size. -/
def chooseChunkSizeByRtt (baseChunkSize : ℚ) (rttMs : Option ℚ) : ℚ :=
  match rttMs with
  | none => roundChunkSize baseChunkSize
  | some r =>
      if r ≤ 60 then roundChunkSize baseChunkSize
      else if r ≤ 140 then roundChunkSize (min baseChunkSize 49152)
      else if r ≤ 280 then roundChunkSize (min baseChunkSize 32768)
      else roundChunkSize (min baseChunkSize MIN_CHUNK_SIZE_BYTES)

/-- Result record of `buildAdaptiveChunkPlan`. -/
structure AdaptiveChunkPlan where
  chunkSize : ℚ
  rttMs : Option ℚ
  messageLimit : Option ℚ
  reason : String
deriving DecidableEq, Repr

/-- `buildAdaptiveChunkPlan(baseChunkSize, maxMessageSize, rttMs)`. -/
def buildAdaptiveChunkPlan (baseChunkSize : ℚ) (maxMessageSize : Option ℚ)
    (rttMs : Option ℚ) : AdaptiveChunkPlan :=
  let byRtt := chooseChunkSizeByRtt baseChunkSize rttMs
  let byMessageLimit := clampChunkSizeByMaxMessageSize byRtt maxMessageSize
  let reason0 : String :=
    if rttMs ≠ none ∧ byRtt ≠ roundChunkSize baseChunkSize then "rtt_adaptive" else "default"
  let reason : String :=
    if byMessageLimit < byRtt then "max_message_size" else reason0
  { chunkSize := byMessageLimit, rttMs := rttMs, messageLimit := maxMessageSize, reason := reason }

/-!
  ## Structured event envelope (src/common/structured-event.ts)
-/

/-- The envelope record: `kind` is always `"peershare.event"` and
`version` is always `1`, so only the varying fields are carried. -/
structure StructuredEventEnvelope where
  event : String
  timestamp : JSNum
  payload : List (String × JSVal)

/-- `createStructuredEventEnvelope(event, payload, timestamp)`. -/
def createStructuredEventEnvelope (event : String)
    (payload : List (String × JSVal)) (timestamp : JSNum) : StructuredEventEnvelope :=
  { event := event, timestamp := timestamp, payload := payload }

/-- The JavaScript object an envelope denotes (what `JSON.stringify` would
see): the five fields in construction order. -/
def StructuredEventEnvelope.toJSVal (e : StructuredEventEnvelope) : JSVal :=
  JSVal.objV
    [ ("kind", JSVal.strV "peershare.event")
    , ("version", JSVal.numV (JSNum.num 1))
    , ("event", JSVal.strV e.event)
    , ("timestamp", JSVal.numV e.timestamp)
    , ("payload", JSVal.objV e.payload) ]

/-- The standard-envelope branch of `parseStructuredEventEnvelope`:
requires `kind === "peershare.event"`, `version === 1`, a string `event`,
a finite numeric `timestamp` and a record `payload`. -/
def parseStandardEnvelope (fields : List (String × JSVal)) :
    Option StructuredEventEnvelope :=
  match getField fields "kind", getField fields "version",
      getField fields "event", getField fields "timestamp",
      getField fields "payload" with
  | some (JSVal.strV k), some (JSVal.numV v), some (JSVal.strV e),
      some (JSVal.numV t), some (JSVal.objV p) =>
      if k = "peershare.event" ∧ v = JSNum.num 1 ∧ t.isFinite then
        some { event := e, timestamp := t, payload := p }
      else none
  | _, _, _, _, _ => none

/-- The legacy branch: a string `event` and finite numeric `timestamp`;
all sibling fields are folded into the payload
(`const { event, timestamp, ...legacyPayload } = raw`). -/
def parseLegacyEnvelope (fields : List (String × JSVal)) :
    Option StructuredEventEnvelope :=
  match getField fields "event", getField fields "timestamp" with
  | some (JSVal.strV e), some (JSVal.numV t) =>
      if t.isFinite then
        some (createStructuredEventEnvelope e
          (fields.filter (fun p => p.1 ≠ "event" ∧ p.1 ≠ "timestamp")) t)
      else none
  | _, _ => none

/-- `parseStructuredEventEnvelope(raw)`: non-records are rejected, the
standard envelope shape is tried first, then the legacy shape. -/
def parseStructuredEventEnvelope (raw : JSVal) : Option StructuredEventEnvelope :=
  match raw with
  | JSVal.objV fields =>
      match parseStandardEnvelope fields with
      | some env => some env
      | none => parseLegacyEnvelope fields
  | _ => none

/-!
  ## Send queue state machine (src/client/send-queue.ts)

  The reducer is a pure function in the source except for its `Date.now()`
  reads, which become an explicit `now` parameter.  `withRevision` compares
  its `items` argument against `state.items` by reference; at every call
  site that reaches it the argument is a freshly allocated array
  (`map`/`filter`/spread), so the comparison is always `true` there and the
  embedding bumps the revision unconditionally.
-/

/-- A `File` handle as far as the queue observes it. -/
structure JSFile where
  name : String
  size : ℚ
deriving DecidableEq, Repr

/-- `OutgoingQueueItemStatus`. -/
inductive OutgoingQueueItemStatus where
  | queued
  | sending
  | completed
  | failed
deriving DecidableEq, Repr

/-- `OutgoingQueueItem`. -/
structure OutgoingQueueItem where
  id : String
  file : JSFile
  status : OutgoingQueueItemStatus
  sentBytes : ℚ
  totalBytes : ℚ
  progressPercent : ℚ
  attempts : ℚ
  errorMessage : Option String
  addedAt : ℚ
  startedAt : Option ℚ
  finishedAt : Option ℚ
deriving DecidableEq, Repr

/-- `SendQueueState`. -/
structure SendQueueState where
  items : List OutgoingQueueItem
  activeItemId : Option String
  revision : ℕ
deriving DecidableEq, Repr

/-- `SendQueueAction`. -/
inductive SendQueueAction where
  | enqueue (items : List OutgoingQueueItem)
  | markSending (itemId : String)
  | updateProgress (itemId : String) (sentBytes totalBytes : ℚ)
  | markCompleted (itemId : String)
  | markFailed (itemId : String) (errorMessage : String)
  | retry (itemId : String)
  | remove (itemId : String)
  | clearCompleted
  | reset
deriving DecidableEq, Repr

/-- `clampProgress` (the input is a finite rational here, so the
`Number.isFinite` guard of the source is always passed). -/
def clampProgress (progress : ℚ) : ℚ :=
  max 0 (min 100 progress)

/-- `withRevision` at a call site whose `items` argument is freshly
allocated: the observable-change check passes and the revision is bumped. -/
def withRevision (state : SendQueueState) (items : List OutgoingQueueItem)
    (activeItemId : Option String) : SendQueueState :=
  { items := items, activeItemId := activeItemId, revision := state.revision + 1 }

/-- `createInitialSendQueueState()`. -/
def createInitialSendQueueState : SendQueueState :=
  { items := [], activeItemId := none, revision := 0 }

/-- `sendQueueReducer(state, action)`, with the reducer's `Date.now()`
reads passed in as `now`. -/
def sendQueueReducer (state : SendQueueState) (now : ℚ)
    (action : SendQueueAction) : SendQueueState :=
  match action with
  | SendQueueAction.enqueue newItems =>
      if newItems.length = 0 then state
      else withRevision state (state.items ++ newItems) state.activeItemId
  | SendQueueAction.markSending itemId =>
      let found := state.items.any (fun item => item.id == itemId)
      let items := state.items.map (fun item =>
        if item.id = itemId then
          { item with status := OutgoingQueueItemStatus.sending,
                      attempts := item.attempts + 1, errorMessage := none,
                      startedAt := some now, finishedAt := none }
        else if item.status = OutgoingQueueItemStatus.sending then
          { item with status := OutgoingQueueItemStatus.queued,
                      errorMessage := none, startedAt := none, finishedAt := none }
        else item)
      if found then withRevision state items (some itemId) else state
  | SendQueueAction.updateProgress itemId sentBytes totalBytes =>
      let items := state.items.map (fun item =>
        if item.id ≠ itemId ∨ item.status ≠ OutgoingQueueItemStatus.sending then item
        else
          let normalizedTotalBytes := max 0 totalBytes
          let normalizedSentBytes := max 0 (min sentBytes normalizedTotalBytes)
          let progressPercent :=
            if 0 < normalizedTotalBytes then
              clampProgress (normalizedSentBytes / normalizedTotalBytes * 100)
            else 0
          { item with sentBytes := normalizedSentBytes,
                      totalBytes := normalizedTotalBytes,
                      progressPercent := progressPercent })
      withRevision state items state.activeItemId
  | SendQueueAction.markCompleted itemId =>
      let found := state.items.any (fun item => item.id == itemId)
      let items := state.items.map (fun item =>
        if item.id ≠ itemId then item
        else
          { item with status := OutgoingQueueItemStatus.completed,
                      sentBytes := item.totalBytes, progressPercent := 100,
                      errorMessage := none, finishedAt := some now })
      if found then
        withRevision state items
          (if state.activeItemId = some itemId then none else state.activeItemId)
      else state
  | SendQueueAction.markFailed itemId errorMessage =>
      let found := state.items.any (fun item => item.id == itemId)
      let items := state.items.map (fun item =>
        if item.id ≠ itemId then item
        else
          { item with status := OutgoingQueueItemStatus.failed,
                      errorMessage := some errorMessage, finishedAt := some now })
      if found then
        withRevision state items
          (if state.activeItemId = some itemId then none else state.activeItemId)
      else state
  | SendQueueAction.retry itemId =>
      let found := state.items.any (fun item =>
        item.id == itemId && item.status == OutgoingQueueItemStatus.failed)
      let items := state.items.map (fun item =>
        if item.id ≠ itemId ∨ item.status ≠ OutgoingQueueItemStatus.failed then item
        else
          { item with status := OutgoingQueueItemStatus.queued, sentBytes := 0,
                      progressPercent := 0, errorMessage := none,
                      startedAt := none, finishedAt := none })
      if found then withRevision state items state.activeItemId else state
  | SendQueueAction.remove itemId =>
      match state.items.find? (fun item => item.id == itemId) with
      | none => state
      | some target =>
          if target.status = OutgoingQueueItemStatus.sending then state
          else
            withRevision state (state.items.filter (fun item => item.id ≠ itemId))
              (if state.activeItemId = some itemId then none else state.activeItemId)
  | SendQueueAction.clearCompleted =>
      let items := state.items.filter (fun item =>
        item.status ≠ OutgoingQueueItemStatus.completed)
      if items.length = state.items.length then state
      else withRevision state items state.activeItemId
  | SendQueueAction.reset =>
      if state.items.length = 0 ∧ state.activeItemId = none then state
      else { items := [], activeItemId := none, revision := state.revision + 1 }

/-- States reachable from `createInitialSendQueueState` by any finite
sequence of reducer actions (with arbitrary clock reads). -/
inductive SendQueueReachable : SendQueueState → Prop where
  | init : SendQueueReachable createInitialSendQueueState
  | step (s : SendQueueState) (now : ℚ) (a : SendQueueAction) :
      SendQueueReachable s → SendQueueReachable (sendQueueReducer s now a)

/-- Number of items currently in status `sending`. -/
def countSending (state : SendQueueState) : ℕ :=
  state.items.countP (fun item => item.status == OutgoingQueueItemStatus.sending)

/-!
  ## Persistent transfer store (src/client/transfer-store.ts)

  IndexedDB is modelled as lists of session and chunk records; primary-key
  `put` replaces any record with the same key.  IndexedDB keys are valid
  (finite, non-`NaN`) numbers, so chunk indexes are carried in `ℚ`.
  `Number.MAX_SAFE_INTEGER`, which the store uses as the upper bound of its
  key ranges, is kept explicit.
-/

/-- `Number.MAX_SAFE_INTEGER` (`2^53 - 1`). -/
def MAX_SAFE_INTEGER : ℚ := 9007199254740991

/-- `PersistedTransferDirection`. -/
inductive TransferDirection where
  | incoming
  | outgoing
deriving DecidableEq, Repr

/-- Wire rendering of a direction, used in session keys. -/
def TransferDirection.render : TransferDirection → String
  | TransferDirection.incoming => "incoming"
  | TransferDirection.outgoing => "outgoing"

/-- `PersistedTransferStatus`. -/
inductive PersistedTransferStatus where
  | active
  | completed
  | failed
deriving DecidableEq, Repr

/-- `createTransferSessionKey(direction, uploadId)`. -/
def createTransferSessionKey (direction : TransferDirection) (uploadId : String) : String :=
  direction.render ++ ":" ++ uploadId

/-- `FileMetadata` (src/common/types.ts), after the points where the
receiving code has checked `id`, `size` and `chunkSize` dynamically. -/
structure FileMetadata where
  id : String
  name : String
  size : JSNum
  mimeType : String
  totalChunks : JSNum
  chunkSize : JSNum
  uploadId : Option String
  protocolVersion : Option JSNum
  fileChecksum : Option String
  fingerprint : Option String
deriving DecidableEq, Repr

/-- `PersistedTransferSession`. -/
structure PersistedTransferSession where
  sessionKey : String
  direction : TransferDirection
  status : PersistedTransferStatus
  uploadId : String
  fileId : String
  fileName : String
  fileType : String
  fileSize : JSNum
  chunkSize : JSNum
  totalChunks : JSNum
  nextChunkIndex : JSNum
  bytesTransferred : JSNum
  remotePeerId : String
  fingerprint : Option String
  fileChecksum : Option String
  createdAt : ℚ
  updatedAt : ℚ
deriving DecidableEq, Repr

/-- `PersistedChunkRecord` (the chunk bytes are a byte list). -/
structure PersistedChunkRecord where
  uploadId : String
  chunkIndex : ℚ
  data : List ℕ
  checksum : String
  size : ℚ
  updatedAt : ℚ
deriving DecidableEq, Repr

/-- The durable store contents: the `transfer_sessions` and
`transfer_chunks` tables. -/
structure TransferStoreState where
  sessions : List PersistedTransferSession
  chunks : List PersistedChunkRecord
deriving Repr

/-- `getSession(sessionKey)`. -/
def getSession (st : TransferStoreState) (sessionKey : String) :
    Option PersistedTransferSession :=
  st.sessions.find? (fun s => s.sessionKey == sessionKey)

/-- `putSession(session)`: primary-key put, replacing any session with the
same `sessionKey`. -/
def putSession (st : TransferStoreState) (session : PersistedTransferSession) :
    TransferStoreState :=
  { st with sessions :=
      st.sessions.filter (fun s => s.sessionKey ≠ session.sessionKey) ++ [session] }

/-- `getChunk(uploadId, chunkIndex)`. -/
def getChunk (st : TransferStoreState) (uploadId : String) (chunkIndex : ℚ) :
    Option PersistedChunkRecord :=
  st.chunks.find? (fun c => c.uploadId == uploadId && c.chunkIndex == chunkIndex)

/-- Membership of a chunk key in the IndexedDB bound range
`[[uploadId, lo], [uploadId, MAX_SAFE_INTEGER]]`. -/
def chunkKeyInRange (uploadId : String) (lo : ℚ) (c : PersistedChunkRecord) : Bool :=
  c.uploadId == uploadId && decide (lo ≤ c.chunkIndex) &&
    decide (c.chunkIndex ≤ MAX_SAFE_INTEGER)

/-- `getChunkCount(uploadId)`: count over the range
`[[uploadId, 0], [uploadId, MAX_SAFE_INTEGER]]`. -/
def getChunkCount (st : TransferStoreState) (uploadId : String) : ℕ :=
  (st.chunks.filter (chunkKeyInRange uploadId 0)).length

/-- Loop body of `getContiguousChunkCount`: iterate `0, 1, 2, …` until a
gap or until `contiguous < totalChunks` fails (JavaScript comparison).
The fuel is one more than the store population, which bounds how far a
contiguous run of distinct keys can reach. -/
def contiguousChunkLoop (st : TransferStoreState) (uploadId : String)
    (totalChunks : JSNum) : ℕ → ℕ → ℕ
  | contiguous, 0 => contiguous
  | contiguous, fuel + 1 =>
      if JSNum.lt (JSNum.num contiguous) totalChunks ∧
          (getChunk st uploadId contiguous).isSome then
        contiguousChunkLoop st uploadId totalChunks (contiguous + 1) fuel
      else contiguous

/-- `getContiguousChunkCount(uploadId, totalChunks)`. -/
def getContiguousChunkCount (st : TransferStoreState) (uploadId : String)
    (totalChunks : JSNum) : ℕ :=
  contiguousChunkLoop st uploadId totalChunks 0 (st.chunks.length + 1)

/-- `deleteChunksFrom(uploadId, fromChunk)`: cursor-delete over the range
`[[uploadId, Math.max(0, fromChunk)], [uploadId, MAX_SAFE_INTEGER]]`. -/
def deleteChunksFrom (st : TransferStoreState) (uploadId : String)
    (fromChunk : JSNum) : TransferStoreState :=
  { st with chunks := st.chunks.filter (fun c =>
      !(c.uploadId == uploadId &&
        JSNum.le (JSNum.max2 (JSNum.num 0) fromChunk) (JSNum.num c.chunkIndex) &&
        JSNum.le (JSNum.num c.chunkIndex) (JSNum.num MAX_SAFE_INTEGER))) }

/-- `deleteUpload(uploadId)`: delete every session with that `uploadId`
and every chunk in the range `[[uploadId, 0], [uploadId, MAX_SAFE_INTEGER]]`. -/
def deleteUpload (st : TransferStoreState) (uploadId : String) : TransferStoreState :=
  { sessions := st.sessions.filter (fun s => s.uploadId ≠ uploadId)
  , chunks := st.chunks.filter (fun c => !(chunkKeyInRange uploadId 0 c)) }

/-!
  ## Session upsert (src/client/webrtc.ts, `upsertPersistedSession`)
-/

/-- First-defined option (`a ?? b` on optional values). -/
def jsCoalesce {α : Type} (a b : Option α) : Option α :=
  match a with
  | some x => some x
  | none => b

/-- `getUploadId(metadata)`: `metadata.uploadId || metadata.id` (the empty
string is falsy). -/
def getUploadId (metadata : FileMetadata) : String :=
  match metadata.uploadId with
  | some u => if u = "" then metadata.id else u
  | none => metadata.id

/-- The optional `fingerprint` / `fileChecksum` overrides of
`upsertPersistedSession`. -/
structure UpsertOptions where
  fingerprint : Option String
  fileChecksum : Option String
deriving Repr

/-- `buildPersistedSession(...)`: a fresh session record with
`createdAt = updatedAt = now`. -/
def buildPersistedSession (direction : TransferDirection) (metadata : FileMetadata)
    (remotePeerId : String) (status : PersistedTransferStatus)
    (nextChunkIndex bytesTransferred : JSNum)
    (fingerprint fileChecksum : Option String) (now : ℚ) : PersistedTransferSession :=
  let uploadId := getUploadId metadata
  { sessionKey := createTransferSessionKey direction uploadId
  , direction := direction
  , status := status
  , uploadId := uploadId
  , fileId := metadata.id
  , fileName := metadata.name
  , fileType := metadata.mimeType
  , fileSize := metadata.size
  , chunkSize := metadata.chunkSize
  , totalChunks := metadata.totalChunks
  , nextChunkIndex := nextChunkIndex
  , bytesTransferred := bytesTransferred
  , remotePeerId := remotePeerId
  , fingerprint := fingerprint
  , fileChecksum := fileChecksum
  , createdAt := now
  , updatedAt := now }

/-- `upsertPersistedSession(direction, metadata, status, nextChunkIndex,
bytesTransferred, options)`: read the existing session for the
`(direction, uploadId)` key, build the new record (falling back to the
existing `fingerprint`/`fileChecksum` when no option is supplied), keep the
existing `createdAt`, and put it back. -/
def upsertPersistedSession (st : TransferStoreState) (storeSupported : Bool)
    (direction : TransferDirection) (metadata : FileMetadata)
    (remotePeerId : String) (status : PersistedTransferStatus)
    (nextChunkIndex bytesTransferred : JSNum) (options : UpsertOptions)
    (now : ℚ) : TransferStoreState :=
  if !storeSupported then st
  else
    let existing := getSession st (createTransferSessionKey direction (getUploadId metadata))
    let session := buildPersistedSession direction metadata remotePeerId status
      nextChunkIndex bytesTransferred
      (jsCoalesce options.fingerprint (existing.bind (fun e => e.fingerprint)))
      (jsCoalesce options.fileChecksum (existing.bind (fun e => e.fileChecksum))) now
    let session :=
      match existing with
      | some e => { session with createdAt := e.createdAt }
      | none => session
    putSession st session

/-!
  ## Streaming finalizer (src/client/transfer-finalizer.ts)

  The OPFS sink exists only when the external `navigator.storage`
  collaborator provides one; the embedding models the always-available
  in-memory sink (`createInMemoryChunkSink`).  The final sink state is
  returned alongside the result so that abort behaviour is observable:
  `abort()` empties the retained chunk list.
-/

/-- A reassembled `Blob`: concatenated bytes plus MIME type. -/
structure Blob where
  data : List ℕ
  mimeType : String
deriving DecidableEq, Repr

/-- `FinalizeStorageMode`. -/
inductive FinalizeStorageMode where
  | opfs
  | memory
deriving DecidableEq, Repr

/-- `FinalizeFromStoreResult`. -/
inductive FinalizeFromStoreResult where
  | missingChunk (index : ℕ)
  | checksumMismatch (fileChecksum : String)
  | success (blob : Blob) (fileChecksum : String) (storageMode : FinalizeStorageMode)
deriving DecidableEq, Repr

/-- Final state of the in-memory chunk sink: the retained chunk buffers
and whether the sink was aborted (`abort()` sets `chunks.length = 0`). -/
structure MemorySinkState where
  chunks : List (List ℕ)
  aborted : Bool
deriving DecidableEq, Repr

/-- Whether `expectedChecksum && fileChecksum !== expectedChecksum` is
truthy (an empty expected checksum is falsy and skips the comparison). -/
def checksumMismatchCheck (expectedChecksum : Option String)
    (fileChecksum : String) : Bool :=
  match expectedChecksum with
  | some e => decide (e ≠ "") && decide (fileChecksum ≠ e)
  | none => false

/-- Iteration count of a JavaScript `for (let i = 0; i < bound; i++)` loop
over a `JSNum` bound: `⌈bound⌉` clamped to `ℕ` for finite bounds, the
supplied fallback fuel for `Infinity` (the callers below only ever reach
that case with stores too small to sustain it), `0` for `NaN`/`-Infinity`. -/
def jsLoopCount (bound : JSNum) (fallbackFuel : ℕ) : ℕ :=
  match bound with
  | JSNum.num q => (Rat.ceil q).toNat
  | JSNum.posInf => fallbackFuel
  | _ => 0

/-- The chunk loop of `finalizeIncomingTransferFromStore`: fetch chunk `i`,
fail with `missing_chunk` (aborting the sink) on a miss, otherwise record
the checksum, write the bytes and continue; after the loop derive the file
checksum, compare against the expected one, and close the sink. -/
def finalizeLoop (hashText : String → String) (st : TransferStoreState)
    (uploadId : String) (mimeType : String) (expectedChecksum : Option String) :
    ℕ → ℕ → List String → List (List ℕ) → FinalizeFromStoreResult × MemorySinkState
  | _, 0, chunkChecksums, written =>
      let fileChecksum := deriveFileChecksumFromChunkChecksums hashText chunkChecksums
      if checksumMismatchCheck expectedChecksum fileChecksum then
        (FinalizeFromStoreResult.checksumMismatch fileChecksum,
         { chunks := [], aborted := true })
      else
        (FinalizeFromStoreResult.success
           { data := written.flatten, mimeType := mimeType } fileChecksum
           FinalizeStorageMode.memory,
         { chunks := written, aborted := false })
  | i, fuel + 1, chunkChecksums, written =>
      match getChunk st uploadId i with
      | none =>
          (FinalizeFromStoreResult.missingChunk i, { chunks := [], aborted := true })
      | some chunk =>
          finalizeLoop hashText st uploadId mimeType expectedChecksum
            (i + 1) fuel (chunkChecksums ++ [chunk.checksum]) (written ++ [chunk.data])

/-- `finalizeIncomingTransferFromStore({transferStore, uploadId, metadata,
expectedChecksum})`. -/
def finalizeIncomingTransferFromStore (hashText : String → String)
    (st : TransferStoreState) (uploadId : String) (metadata : FileMetadata)
    (expectedChecksum : Option String) : FinalizeFromStoreResult × MemorySinkState :=
  finalizeLoop hashText st uploadId metadata.mimeType expectedChecksum 0
    (jsLoopCount metadata.totalChunks (st.chunks.length + 1)) [] []

/-!
  ## Transfer engine, receive side (src/client/webrtc-transfer.ts)
-/

/-- `IncomingTransferState` (the per-file serialized write queue is a
scheduling artifact and carries no data; it is not represented). -/
structure IncomingTransferState where
  metadata : FileMetadata
  receivedChunks : JSNum
  bytesReceived : JSNum
  expectedChunkIndex : JSNum
  ready : Bool
  uploadId : String
  expectedFileChecksum : Option String
  chunkChecksums : List String
  hasPersistenceError : Bool
deriving Repr

/-- Association-list read (`Map.get` / plain lookup). -/
def assocGet {α : Type} (m : List (String × α)) (key : String) : Option α :=
  (m.find? (fun p => p.1 == key)).map Prod.snd

/-- Association-list write (`Map.set`). -/
def assocSet {α : Type} (m : List (String × α)) (key : String) (value : α) :
    List (String × α) :=
  m.filter (fun p => p.1 ≠ key) ++ [(key, value)]

/-- `array.slice(0, endIdx)` for a `JSNum` end index (JavaScript coerces
the index with truncation toward zero; a negative index counts from the
end). -/
def jsSliceEnd {α : Type} (l : List α) (endIdx : JSNum) : List α :=
  match endIdx with
  | JSNum.nan => []
  | JSNum.negInf => []
  | JSNum.posInf => l
  | JSNum.num q =>
      if q < 0 then l.take ((l.length : ℤ) + Rat.ceil q).toNat
      else l.take (Rat.floor q).toNat

/-- Observable outcome of the receive-side `requestRetransmit`. -/
structure RetransmitOutcome where
  transfer : IncomingTransferState
  store : TransferStoreState
  inMemoryChunks : List (String × List (List ℕ))
  sentMessage : Option (String × String × JSNum × String)
deriving Repr

/-- `requestRetransmit(transfer, fromChunk, reason)`: normalize the start
chunk, reset the local counters to it, truncate `chunkChecksums`, delete
persisted chunks from the start chunk on (or truncate the in-memory
buffers when the store is unsupported), persist the session, and send the
`request-retransmit` control message when the channel is open. -/
def requestRetransmit (transfer : IncomingTransferState) (fromChunk : JSNum)
    (reason : String) (st : TransferStoreState) (storeSupported : Bool)
    (inMemory : List (String × List (List ℕ))) (remotePeerId : String)
    (channelReady : Bool) (now : ℚ) : RetransmitOutcome :=
  let startChunk := normalizeChunkIndex fromChunk transfer.metadata.totalChunks
  let transfer1 := { transfer with
    receivedChunks := startChunk
  , expectedChunkIndex := startChunk
  , bytesReceived :=
      bytesForChunkIndex startChunk transfer.metadata.chunkSize transfer.metadata.size
  , chunkChecksums := jsSliceEnd transfer.chunkChecksums startChunk }
  let st1 := if storeSupported then deleteChunksFrom st transfer.uploadId startChunk else st
  let inMemory1 :=
    if storeSupported then inMemory
    else assocSet inMemory transfer.metadata.id
      (jsSliceEnd ((assocGet inMemory transfer.metadata.id).getD []) startChunk)
  let st2 := upsertPersistedSession st1 storeSupported TransferDirection.incoming
    transfer1.metadata remotePeerId PersistedTransferStatus.active startChunk
    transfer1.bytesReceived { fingerprint := none, fileChecksum := none } now
  { transfer := transfer1
  , store := st2
  , inMemoryChunks := inMemory1
  , sentMessage :=
      if channelReady then
        some (transfer.metadata.id, transfer.uploadId, startChunk, reason)
      else none }

/-- `ADAPTIVE_CHUNK_CONFIG.MIN_CHUNK_SIZE` (16 KiB) as a `JSNum`. -/
def MIN_CHUNK_SIZE_JS : JSNum := JSNum.num 16384

/-- A `file-offer` metadata payload as it arrives off the wire: the fields
the handler checks dynamically (`id`, `size`, `chunkSize`) are raw
JavaScript values.  The incoming `totalChunks` field is ignored — the
handler always recomputes it — so it is not carried. -/
structure RawFileMetadata where
  id : JSVal
  name : String
  size : JSVal
  mimeType : String
  chunkSize : JSVal
  uploadId : Option String
  protocolVersion : Option JSNum
  fileChecksum : Option String
  fingerprint : Option String

/-- The metadata-validity test of `handleIncomingFileOffer`:
`typeof chunkSize !== "number" || chunkSize <= 0 || chunkSize < MIN ||
typeof size !== "number" || size < 0`. -/
def offerMetadataInvalid (raw : RawFileMetadata) : Bool :=
  match raw.chunkSize with
  | JSVal.numV c =>
      JSNum.le c (JSNum.num 0) || JSNum.lt c MIN_CHUNK_SIZE_JS ||
        (match raw.size with
         | JSVal.numV s => JSNum.lt s (JSNum.num 0)
         | _ => true)
  | _ => true

/-- The file-id validity test: `!metadata.id || typeof metadata.id !==
"string"` — the id must be a truthy (non-empty) string. -/
def offerIdInvalid (raw : RawFileMetadata) : Bool :=
  !raw.id.truthy || !raw.id.isStringV

/-- Observable outcome of `handleIncomingFileOffer`. -/
structure OfferOutcome where
  transferErrors : List (String × String × String)
  currentReceivingFileId : Option String
  store : TransferStoreState
  inMemoryChunks : List (String × List (List ℕ))
  incomingTransfers : List (String × IncomingTransferState)
  receiverReady : Option (String × String × JSNum)
  offerCallback : Option FileMetadata

/-- `handleIncomingFileOffer(metadata)`: validate the offer (replying with
`INVALID_FILE_ID` / `INVALID_METADATA` transfer errors on failure),
normalize the metadata, probe the store for a resume point (the probe
cannot throw in this pure model, so the `catch` path does not arise),
register the incoming transfer, persist the session, and reply
`receiver-ready`. -/
def handleIncomingFileOffer (raw : RawFileMetadata) (st : TransferStoreState)
    (storeSupported : Bool) (inMemory : List (String × List (List ℕ)))
    (incomingTransfers : List (String × IncomingTransferState))
    (currentReceivingFileId : Option String) (remotePeerId : String)
    (now : ℚ) : OfferOutcome :=
  if offerIdInvalid raw then
    { transferErrors := [("", "INVALID_FILE_ID", "Invalid fileId")]
    , currentReceivingFileId := currentReceivingFileId
    , store := st, inMemoryChunks := inMemory
    , incomingTransfers := incomingTransfers
    , receiverReady := none, offerCallback := none }
  else if offerMetadataInvalid raw then
    { transferErrors :=
        [(match raw.id with | JSVal.strV s => s | _ => "", "INVALID_METADATA",
          "Invalid metadata")]
    , currentReceivingFileId := currentReceivingFileId
    , store := st, inMemoryChunks := inMemory
    , incomingTransfers := incomingTransfers
    , receiverReady := none, offerCallback := none }
  else
    let idStr := match raw.id with | JSVal.strV s => s | _ => ""
    let sizeN := match raw.size with | JSVal.numV s => s | _ => JSNum.nan
    let chunkN := match raw.chunkSize with | JSVal.numV c => c | _ => JSNum.nan
    let uploadId := match raw.uploadId with
      | some u => if u = "" then idStr else u
      | none => idStr
    let normalizedMetadata : FileMetadata :=
      { id := idStr, name := raw.name, size := sizeN, mimeType := raw.mimeType
      , totalChunks := calculateTotalChunks sizeN chunkN, chunkSize := chunkN
      , uploadId := some uploadId
      , protocolVersion := some (raw.protocolVersion.getD (JSNum.num 1))
      , fileChecksum := raw.fileChecksum, fingerprint := raw.fingerprint }
    let probe : JSNum × JSNum × TransferStoreState :=
      if storeSupported then
        match getSession st (createTransferSessionKey TransferDirection.incoming uploadId) with
        | some existing =>
            if existing.fileSize.strictEq normalizedMetadata.size &&
                existing.chunkSize.strictEq normalizedMetadata.chunkSize &&
                existing.totalChunks.strictEq normalizedMetadata.totalChunks &&
                decide (existing.status ≠ PersistedTransferStatus.completed) then
              let contiguous : ℕ :=
                getContiguousChunkCount st uploadId normalizedMetadata.totalChunks
              let resumeFromChunk := normalizeChunkIndex
                (JSNum.min2 existing.nextChunkIndex (JSNum.num contiguous))
                normalizedMetadata.totalChunks
              (resumeFromChunk,
               bytesForChunkIndex resumeFromChunk normalizedMetadata.chunkSize
                 normalizedMetadata.size,
               st)
            else (JSNum.num 0, JSNum.num 0, deleteUpload st uploadId)
        | none => (JSNum.num 0, JSNum.num 0, deleteUpload st uploadId)
      else (JSNum.num 0, JSNum.num 0, st)
    let inMemory1 := if storeSupported then inMemory else assocSet inMemory idStr []
    let transfer : IncomingTransferState :=
      { metadata := normalizedMetadata
      , receivedChunks := probe.1
      , bytesReceived := probe.2.1
      , expectedChunkIndex := probe.1
      , ready := false
      , uploadId := uploadId
      , expectedFileChecksum := normalizedMetadata.fileChecksum
      , chunkChecksums := []
      , hasPersistenceError := false }
    let st1 := upsertPersistedSession probe.2.2 storeSupported
      TransferDirection.incoming normalizedMetadata remotePeerId
      PersistedTransferStatus.active probe.1 probe.2.1
      { fingerprint := none, fileChecksum := none } now
    { transferErrors := []
    , currentReceivingFileId := some idStr
    , store := st1
    , inMemoryChunks := inMemory1
    , incomingTransfers := assocSet incomingTransfers idStr transfer
    , receiverReady := some (idStr, uploadId, probe.1)
    , offerCallback := some normalizedMetadata }

/-!
  ## Spec-side definitions used by the claim statements
-/

/-- The claim's message-limit bound: `maxMessageSize − 1024` rounded down
to a 4 KiB multiple and floored at 16 KiB. -/
def specC1MessageLimitCap (m : ℚ) : ℚ :=
  max 16384 ((⌊(m - 1024) / 4096⌋ * 4096 : ℤ) : ℚ)

/-- The claim's RTT-tiered size: `null` or ≤ 60 ms keeps the base; ≤ 140 ms
caps at 48 KiB; ≤ 280 ms caps at 32 KiB; > 280 ms caps at 16 KiB; each
rounded down to a 4 KiB multiple and floored at 16 KiB. -/
def specC1RttTier (base : ℚ) (rtt : Option ℚ) : ℚ :=
  let round4 : ℚ → ℚ := fun v => max 16384 ((⌊v / 4096⌋ * 4096 : ℤ) : ℚ)
  match rtt with
  | none => round4 base
  | some r =>
      if r ≤ 60 then round4 base
      else if r ≤ 140 then round4 (min base 49152)
      else if r ≤ 280 then round4 (min base 32768)
      else round4 (min base 16384)

/-- The claim's overall chunk size: the RTT-tiered size, further clamped
to the message-limit cap when a message limit is present. -/
def specC1ChunkSize (base : ℚ) (rtt mms : Option ℚ) : ℚ :=
  match mms with
  | none => specC1RttTier base rtt
  | some m => min (specC1RttTier base rtt) (specC1MessageLimitCap m)

/-- Well-formedness of an `enqueue` batch relative to the current state:
every item is `queued` and the ids are fresh and pairwise distinct. -/
def okEnqueue (s : SendQueueState) (newItems : List OutgoingQueueItem) : Prop :=
  (∀ item ∈ newItems, item.status = OutgoingQueueItemStatus.queued) ∧
  (newItems.map (fun it => it.id)).Nodup ∧
  (∀ item ∈ newItems, ∀ old ∈ s.items, old.id ≠ item.id)

instance (s : SendQueueState) (newItems : List OutgoingQueueItem) :
    Decidable (okEnqueue s newItems) := by
  unfold okEnqueue
  infer_instance

/-- Actions admissible in a state: only `enqueue` is constrained. -/
def SendQueueOkAction (s : SendQueueState) : SendQueueAction → Prop
  | SendQueueAction.enqueue newItems => okEnqueue s newItems
  | _ => True

/-- States reachable from the initial state by admissible actions. -/
inductive SendQueueOkReachable : SendQueueState → Prop where
  | init : SendQueueOkReachable createInitialSendQueueState
  | step (s : SendQueueState) (now : ℚ) (a : SendQueueAction) :
      SendQueueOkReachable s → SendQueueOkAction s a →
      SendQueueOkReachable (sendQueueReducer s now a)

/-- Spec-side vocabulary: the chunk records at indexes `i, i+1, …` for
`fuel` steps, or `none` as soon as one is missing. -/
def collectChunks (st : TransferStoreState) (uploadId : String) :
    ℕ → ℕ → Option (List PersistedChunkRecord)
  | _, 0 => some []
  | i, fuel + 1 =>
      match getChunk st uploadId (i : ℚ) with
      | none => none
      | some c => (collectChunks st uploadId (i + 1) fuel).map (fun rest => c :: rest)

/-!
  ## Bridging lemmas

  The executable `Rat.floor` / `Rat.ceil` used in the definitions agree
  with the mathematical `⌊⌋` / `⌈⌉` used in the claim statements.
-/

theorem ratFloor_eq_floor (q : ℚ) : Rat.floor q = ⌊q⌋ :=
  (Rat.floor_def' q).trans Rat.floor_def.symm

theorem ratCeil_eq_ceil (q : ℚ) : Rat.ceil q = ⌈q⌉ := by
  rw [Rat.ceil]
  split
  case isTrue h =>
    have hq : (q.num : ℚ) = q := Rat.coe_int_num_of_den_eq_one h
    have hint := Int.ceil_intCast (α := ℚ) q.num
    rw [hq] at hint
    exact hint.symm
  case isFalse h =>
    have hfl : ⌊q⌋ = q.num / (q.den : ℤ) := Rat.floor_def
    have hne : ((⌊q⌋ : ℤ) : ℚ) ≠ q := by
      intro heq
      exact h (by rw [← heq]; exact Rat.den_intCast ⌊q⌋)
    have hlt : ((⌊q⌋ : ℤ) : ℚ) < q := lt_of_le_of_ne (Int.floor_le q) hne
    have : ⌈q⌉ = q.num / (q.den : ℤ) + 1 := by
      rw [Int.ceil_eq_iff]
      constructor
      · rw [← hfl]
        push_cast
        linarith
      · rw [← hfl]
        push_cast
        exact le_of_lt (Int.lt_floor_add_one q)
    exact this.symm

/-!
  ## Claims about the chunk-math helpers
-/

/-- C6: for every JavaScript number `x` (non-finite values included) and
every chunk count `n ≥ 0`, `normalizeChunkIndex(x, n)` is a finite value
in `[0, n]`; it is `0` when `x` is non-finite or `x ≤ 0`, `n` when
`x ≥ n`, and `⌊x⌋` otherwise. -/
theorem normalizeChunkIndex_range_spec (x : JSNum) (n : ℚ) (hn : 0 ≤ n) :
    (∃ r : ℚ, normalizeChunkIndex x (JSNum.num n) = JSNum.num r ∧ 0 ≤ r ∧ r ≤ n) ∧
    (x.isFinite = false → normalizeChunkIndex x (JSNum.num n) = JSNum.num 0) ∧
    (∀ q : ℚ, x = JSNum.num q → q ≤ 0 →
      normalizeChunkIndex x (JSNum.num n) = JSNum.num 0) ∧
    (∀ q : ℚ, x = JSNum.num q → n ≤ q →
      normalizeChunkIndex x (JSNum.num n) = JSNum.num n) ∧
    (∀ q : ℚ, x = JSNum.num q → 0 < q → q < n →
      normalizeChunkIndex x (JSNum.num n) = JSNum.num (⌊q⌋ : ℤ)) := by
  cases x with
  | nan =>
      refine ⟨⟨0, by simp [normalizeChunkIndex, JSNum.isFinite], le_refl 0, hn⟩, ?_, ?_, ?_, ?_⟩ <;>
        simp [normalizeChunkIndex, JSNum.isFinite]
  | posInf =>
      refine ⟨⟨0, by simp [normalizeChunkIndex, JSNum.isFinite], le_refl 0, hn⟩, ?_, ?_, ?_, ?_⟩ <;>
        simp [normalizeChunkIndex, JSNum.isFinite]
  | negInf =>
      refine ⟨⟨0, by simp [normalizeChunkIndex, JSNum.isFinite], le_refl 0, hn⟩, ?_, ?_, ?_, ?_⟩ <;>
        simp [normalizeChunkIndex, JSNum.isFinite]
  | num q =>
      by_cases hq0 : q ≤ 0
      · have hres : normalizeChunkIndex (JSNum.num q) (JSNum.num n) = JSNum.num 0 := by
          simp [normalizeChunkIndex, JSNum.isFinite, JSNum.le, hq0]
        refine ⟨⟨0, hres, le_refl 0, hn⟩, by simp [JSNum.isFinite], ?_, ?_, ?_⟩
        · intro q' hq' _
          exact hres
        · intro q' hq' hge
          cases hq'
          have hn0 : n = 0 := le_antisymm (hge.trans hq0) hn
          rw [hres, hn0]
        · intro q' hq' hpos _
          cases hq'
          exact absurd hq0 (not_le.mpr hpos)
      · push_neg at hq0
        by_cases hge : n ≤ q
        · have hres : normalizeChunkIndex (JSNum.num q) (JSNum.num n) = JSNum.num n := by
            simp [normalizeChunkIndex, JSNum.isFinite, JSNum.le, JSNum.ge,
              not_le.mpr hq0, hge]
          refine ⟨⟨n, hres, hn, le_refl n⟩, by simp [JSNum.isFinite], ?_, ?_, ?_⟩
          · intro q' hq' hle
            cases hq'
            exact absurd hle (not_le.mpr hq0)
          · intro q' hq' _
            exact hres
          · intro q' hq' _ hlt
            cases hq'
            exact absurd hge (not_le.mpr hlt)
        · push_neg at hge
          have hres : normalizeChunkIndex (JSNum.num q) (JSNum.num n) =
              JSNum.num (⌊q⌋ : ℤ) := by
            simp [normalizeChunkIndex, JSNum.isFinite, JSNum.le, JSNum.ge, JSNum.floor,
              not_le.mpr hq0, not_le.mpr hge, ratFloor_eq_floor]
          refine ⟨⟨(⌊q⌋ : ℤ), hres, ?_, ?_⟩, by simp [JSNum.isFinite], ?_, ?_, ?_⟩
          · exact_mod_cast Int.floor_nonneg.mpr (le_of_lt hq0)
          · calc ((⌊q⌋ : ℤ) : ℚ) ≤ q := Int.floor_le q
              _ ≤ n := le_of_lt hge
          · intro q' hq' hle
            cases hq'
            exact absurd hle (not_le.mpr hq0)
          · intro q' hq' hge'
            cases hq'
            exact absurd hge' (not_le.mpr hge)
          · intro q' hq' _ _
            cases hq'
            exact hres

/-- Closed instance of `normalizeChunkIndex_range_spec` at `x = 8.9`,
`n = 100`. -/
theorem normalizeChunkIndex_range_witness :
    (∃ r : ℚ, normalizeChunkIndex (JSNum.num (89 / 10)) (JSNum.num 100) = JSNum.num r ∧
      0 ≤ r ∧ r ≤ 100) ∧
    ((JSNum.num (89 / 10)).isFinite = false →
      normalizeChunkIndex (JSNum.num (89 / 10)) (JSNum.num 100) = JSNum.num 0) ∧
    (∀ q : ℚ, JSNum.num (89 / 10) = JSNum.num q → q ≤ 0 →
      normalizeChunkIndex (JSNum.num (89 / 10)) (JSNum.num 100) = JSNum.num 0) ∧
    (∀ q : ℚ, JSNum.num (89 / 10) = JSNum.num q → 100 ≤ q →
      normalizeChunkIndex (JSNum.num (89 / 10)) (JSNum.num 100) = JSNum.num 100) ∧
    (∀ q : ℚ, JSNum.num (89 / 10) = JSNum.num q → 0 < q → q < 100 →
      normalizeChunkIndex (JSNum.num (89 / 10)) (JSNum.num 100) = JSNum.num (⌊q⌋ : ℤ)) :=
  normalizeChunkIndex_range_spec (JSNum.num (89 / 10)) 100 (by norm_num)

/-- C10: `calculateTotalChunks` is total over all JavaScript numbers:
whenever `chunkSize <= 0` holds (JavaScript comparison) the division
branch is not taken and the result is `0`; whenever it fails the result is
`Math.ceil(fileSize / chunkSize)`, which for finite inputs with
`chunkSize > 0` is the mathematical ceiling `⌈fileSize / chunkSize⌉`, and
in particular `0` for a zero-byte file. -/
theorem calculateTotalChunks_total_spec (fileSize chunkSize : JSNum) :
    (JSNum.le chunkSize (JSNum.num 0) = true →
      calculateTotalChunks fileSize chunkSize = JSNum.num 0) ∧
    (JSNum.le chunkSize (JSNum.num 0) = false →
      calculateTotalChunks fileSize chunkSize = JSNum.ceil (JSNum.div fileSize chunkSize)) ∧
    (∀ f c : ℚ, fileSize = JSNum.num f → chunkSize = JSNum.num c → 0 < c →
      calculateTotalChunks fileSize chunkSize = JSNum.num (⌈f / c⌉ : ℤ)) ∧
    (∀ c : ℚ, fileSize = JSNum.num 0 → chunkSize = JSNum.num c → 0 < c →
      calculateTotalChunks fileSize chunkSize = JSNum.num 0) := by
  refine ⟨?_, ?_, ?_, ?_⟩
  · intro h
    simp [calculateTotalChunks, h]
  · intro h
    simp [calculateTotalChunks, h]
  · intro f c hf hc hcpos
    cases hf; cases hc
    have hle : JSNum.le (JSNum.num c) (JSNum.num 0) = false := by
      simp [JSNum.le, not_le.mpr hcpos]
    have hc0 : c ≠ 0 := ne_of_gt hcpos
    simp [calculateTotalChunks, hle, JSNum.div, hc0, JSNum.ceil, ratCeil_eq_ceil]
  · intro c hf hc hcpos
    cases hf; cases hc
    have hle : JSNum.le (JSNum.num c) (JSNum.num 0) = false := by
      simp [JSNum.le, not_le.mpr hcpos]
    have hc0 : c ≠ 0 := ne_of_gt hcpos
    simp [calculateTotalChunks, hle, JSNum.div, hc0, JSNum.ceil, ratCeil_eq_ceil]

/-- Closed instance of `calculateTotalChunks_total_spec` at a 10-byte file
with 4-byte chunks. -/
theorem calculateTotalChunks_total_witness :
    calculateTotalChunks (JSNum.num 10) (JSNum.num 4) = JSNum.num (⌈(10 : ℚ) / 4⌉ : ℤ) :=
  (calculateTotalChunks_total_spec (JSNum.num 10) (JSNum.num 4)).2.2.1 10 4 rfl rfl
    (by norm_num)

/-!
  ## Claims about the send queue
-/

/-- C7: `remove` of an absent id and `clear-completed` of a queue without
completed items both return the input state itself (same revision). -/
theorem sendQueue_noop_spec (s : SendQueueState) (itemId : String) (now : ℚ) :
    ((∀ item ∈ s.items, item.id ≠ itemId) →
      sendQueueReducer s now (SendQueueAction.remove itemId) = s) ∧
    ((∀ item ∈ s.items, item.status ≠ OutgoingQueueItemStatus.completed) →
      sendQueueReducer s now SendQueueAction.clearCompleted = s) := by
  constructor
  · intro h
    have hfind : s.items.find? (fun item => item.id == itemId) = none :=
      List.find?_eq_none.mpr (fun a ha => by simpa using h a ha)
    simp [sendQueueReducer, hfind]
  · intro h
    have hfilter : s.items.filter
        (fun item => item.status ≠ OutgoingQueueItemStatus.completed) = s.items :=
      List.filter_eq_self.mpr (fun a ha => by simpa using h a ha)
    simp only [sendQueueReducer]
    rw [hfilter]
    simp

/-- Closed instance of `sendQueue_noop_spec` on a one-element queue. -/
theorem sendQueue_noop_witness :
    (sendQueueReducer
      { items := [{ id := "a", file := { name := "f", size := 10 },
                    status := OutgoingQueueItemStatus.queued, sentBytes := 0,
                    totalBytes := 10, progressPercent := 0, attempts := 0,
                    errorMessage := none, addedAt := 0, startedAt := none,
                    finishedAt := none }]
      , activeItemId := none, revision := 0 } 0 (SendQueueAction.remove "z") =
      { items := [{ id := "a", file := { name := "f", size := 10 },
                    status := OutgoingQueueItemStatus.queued, sentBytes := 0,
                    totalBytes := 10, progressPercent := 0, attempts := 0,
                    errorMessage := none, addedAt := 0, startedAt := none,
                    finishedAt := none }]
      , activeItemId := none, revision := 0 }) ∧
    (sendQueueReducer
      { items := [{ id := "a", file := { name := "f", size := 10 },
                    status := OutgoingQueueItemStatus.queued, sentBytes := 0,
                    totalBytes := 10, progressPercent := 0, attempts := 0,
                    errorMessage := none, addedAt := 0, startedAt := none,
                    finishedAt := none }]
      , activeItemId := none, revision := 0 } 0 SendQueueAction.clearCompleted =
      { items := [{ id := "a", file := { name := "f", size := 10 },
                    status := OutgoingQueueItemStatus.queued, sentBytes := 0,
                    totalBytes := 10, progressPercent := 0, attempts := 0,
                    errorMessage := none, addedAt := 0, startedAt := none,
                    finishedAt := none }]
      , activeItemId := none, revision := 0 }) := by
  have h := sendQueue_noop_spec
    { items := [{ id := "a", file := { name := "f", size := 10 },
                  status := OutgoingQueueItemStatus.queued, sentBytes := 0,
                  totalBytes := 10, progressPercent := 0, attempts := 0,
                  errorMessage := none, addedAt := 0, startedAt := none,
                  finishedAt := none }]
    , activeItemId := none, revision := 0 } "z" 0
  exact ⟨h.1 (by decide), h.2 (by decide)⟩

/-!
  ## Claim about the session upsert
-/

/-- Auxiliary: `find?` over `l ++ [x]` finds `x` when nothing in `l`
matches and `x` does. -/
theorem find?_append_singleton {α : Type} (p : α → Bool) (l : List α) (x : α)
    (hl : ∀ a ∈ l, p a = false) (hx : p x = true) : (l ++ [x]).find? p = some x := by
  induction l with
  | nil => simp [List.find?, hx]
  | cons a as ih =>
      have ha : p a = false := hl a (List.mem_cons_self a as)
      simp only [List.cons_append, List.find?, ha]
      exact ih (fun b hb => hl b (List.mem_cons_of_mem a hb))

/-- Auxiliary: reading back the session just put under its own key. -/
theorem getSession_putSession (st : TransferStoreState) (s : PersistedTransferSession) :
    getSession (putSession st s) s.sessionKey = some s := by
  unfold getSession putSession
  refine find?_append_singleton _ _ _ ?_ (by simp)
  intro a ha
  have hne : a.sessionKey ≠ s.sessionKey := by
    have := List.mem_filter.mp ha
    simpa using this.2
  simpa using hne

/-- C9: upserting over an existing session for the same
`(direction, uploadId)` key preserves its `createdAt`, and preserves its
`fingerprint` and `fileChecksum` when the corresponding option is not
supplied, while writing the new `status`, `nextChunkIndex`,
`bytesTransferred` and a fresh `updatedAt`. -/
theorem upsertPersistedSession_frame (st : TransferStoreState)
    (direction : TransferDirection) (metadata : FileMetadata)
    (remotePeerId : String) (status : PersistedTransferStatus)
    (nextChunkIndex bytesTransferred : JSNum) (options : UpsertOptions) (now : ℚ)
    (existing : PersistedTransferSession)
    (h : getSession st (createTransferSessionKey direction (getUploadId metadata)) =
      some existing) :
    ∃ s', getSession
        (upsertPersistedSession st true direction metadata remotePeerId status
          nextChunkIndex bytesTransferred options now)
        (createTransferSessionKey direction (getUploadId metadata)) = some s' ∧
      s'.createdAt = existing.createdAt ∧
      (options.fingerprint = none → s'.fingerprint = existing.fingerprint) ∧
      (options.fileChecksum = none → s'.fileChecksum = existing.fileChecksum) ∧
      s'.status = status ∧
      s'.nextChunkIndex = nextChunkIndex ∧
      s'.bytesTransferred = bytesTransferred ∧
      s'.updatedAt = now := by
  refine ⟨{ buildPersistedSession direction metadata remotePeerId status nextChunkIndex
      bytesTransferred (jsCoalesce options.fingerprint existing.fingerprint)
      (jsCoalesce options.fileChecksum existing.fileChecksum) now with
        createdAt := existing.createdAt }, ?_, rfl, ?_, ?_, rfl, rfl, rfl, rfl⟩
  · have hput := getSession_putSession st
      { buildPersistedSession direction metadata remotePeerId status nextChunkIndex
          bytesTransferred (jsCoalesce options.fingerprint existing.fingerprint)
          (jsCoalesce options.fileChecksum existing.fileChecksum) now with
            createdAt := existing.createdAt }
    simpa [upsertPersistedSession, h, Option.bind, buildPersistedSession] using hput
  · intro hnone
    simp [jsCoalesce, hnone, buildPersistedSession]
  · intro hnone
    simp [jsCoalesce, hnone, buildPersistedSession]

/-- Closed instance of `upsertPersistedSession_frame` on a one-session
store. -/
theorem upsertPersistedSession_frame_witness :
    ∃ s', getSession
        (upsertPersistedSession
          { sessions := [{ sessionKey := "incoming:u", direction := TransferDirection.incoming
                         , status := PersistedTransferStatus.active, uploadId := "u"
                         , fileId := "u", fileName := "f", fileType := ""
                         , fileSize := JSNum.num 10, chunkSize := JSNum.num 4
                         , totalChunks := JSNum.num 3, nextChunkIndex := JSNum.num 1
                         , bytesTransferred := JSNum.num 4, remotePeerId := "p"
                         , fingerprint := some "fp", fileChecksum := none
                         , createdAt := 5, updatedAt := 6 }]
          , chunks := [] } true TransferDirection.incoming
          { id := "u", name := "f", size := JSNum.num 10, mimeType := ""
          , totalChunks := JSNum.num 3, chunkSize := JSNum.num 4
          , uploadId := some "u", protocolVersion := some (JSNum.num 2)
          , fileChecksum := none, fingerprint := none }
          "p" PersistedTransferStatus.active (JSNum.num 2) (JSNum.num 8)
          { fingerprint := none, fileChecksum := none } 7)
        (createTransferSessionKey TransferDirection.incoming
          (getUploadId
            { id := "u", name := "f", size := JSNum.num 10, mimeType := ""
            , totalChunks := JSNum.num 3, chunkSize := JSNum.num 4
            , uploadId := some "u", protocolVersion := some (JSNum.num 2)
            , fileChecksum := none, fingerprint := none })) = some s' ∧
      s'.createdAt = 5 ∧
      ((none : Option String) = none → s'.fingerprint = some "fp") ∧
      ((none : Option String) = none → s'.fileChecksum = none) ∧
      s'.status = PersistedTransferStatus.active ∧
      s'.nextChunkIndex = JSNum.num 2 ∧
      s'.bytesTransferred = JSNum.num 8 ∧
      s'.updatedAt = 7 :=
  upsertPersistedSession_frame _ TransferDirection.incoming _ "p"
    PersistedTransferStatus.active (JSNum.num 2) (JSNum.num 8)
    { fingerprint := none, fileChecksum := none } 7
    { sessionKey := "incoming:u", direction := TransferDirection.incoming
    , status := PersistedTransferStatus.active, uploadId := "u"
    , fileId := "u", fileName := "f", fileType := ""
    , fileSize := JSNum.num 10, chunkSize := JSNum.num 4
    , totalChunks := JSNum.num 3, nextChunkIndex := JSNum.num 1
    , bytesTransferred := JSNum.num 4, remotePeerId := "p"
    , fingerprint := some "fp", fileChecksum := none
    , createdAt := 5, updatedAt := 6 } (by decide)

/-!
  ## Claim about the adaptive chunk planner

  Spec-side definitions, written from the claim's words: the RTT-tiered
  size and the message-limit cap
  (`max(16 KiB, 4 KiB ⋅ ⌊(maxMessageSize − 1024) / 4 KiB⌋)`).
-/

theorem roundChunkSize_def (v : ℚ) :
    roundChunkSize v = max 16384 ((⌊v / 4096⌋ * 4096 : ℤ) : ℚ) := by
  simp only [roundChunkSize, MIN_CHUNK_SIZE_BYTES, CHUNK_SIZE_STEP_BYTES, ratFloor_eq_floor]

theorem roundChunkSize_sixteen : roundChunkSize 16384 = 16384 := by
  rw [roundChunkSize_def]
  have h4 : (16384 : ℚ) / 4096 = ((4 : ℤ) : ℚ) := by norm_num
  rw [h4, Int.floor_intCast]
  norm_num

theorem roundChunkSize_idem (v : ℚ) :
    roundChunkSize (roundChunkSize v) = roundChunkSize v := by
  rw [roundChunkSize_def v, roundChunkSize_def]
  rcases le_or_lt 16384 ((⌊v / 4096⌋ * 4096 : ℤ) : ℚ) with h | h
  · rw [max_eq_right h]
    have hdiv : ((⌊v / 4096⌋ * 4096 : ℤ) : ℚ) / 4096 = ((⌊v / 4096⌋ : ℤ) : ℚ) := by
      push_cast
      field_simp
    rw [hdiv, Int.floor_intCast, max_eq_right h]
  · rw [max_eq_left (le_of_lt h)]
    have h4 : (16384 : ℚ) / 4096 = ((4 : ℤ) : ℚ) := by norm_num
    rw [h4, Int.floor_intCast]
    norm_num

theorem chooseChunkSizeByRtt_round (base : ℚ) (rtt : Option ℚ) :
    roundChunkSize (chooseChunkSizeByRtt base rtt) = chooseChunkSizeByRtt base rtt := by
  cases rtt with
  | none => exact roundChunkSize_idem base
  | some r =>
      simp only [chooseChunkSizeByRtt]
      split_ifs <;> exact roundChunkSize_idem _

theorem chooseChunkSizeByRtt_eq_spec (base : ℚ) (rtt : Option ℚ) :
    chooseChunkSizeByRtt base rtt = specC1RttTier base rtt := by
  cases rtt with
  | none => simp only [chooseChunkSizeByRtt, specC1RttTier, roundChunkSize_def]
  | some r =>
      simp only [chooseChunkSizeByRtt, specC1RttTier, roundChunkSize_def,
        MIN_CHUNK_SIZE_BYTES]

theorem roundChunkSize_safeLimit_eq_cap (m : ℚ) :
    roundChunkSize (max MIN_CHUNK_SIZE_BYTES (m - MESSAGE_OVERHEAD_BYTES)) =
      specC1MessageLimitCap m := by
  simp only [MIN_CHUNK_SIZE_BYTES, MESSAGE_OVERHEAD_BYTES, specC1MessageLimitCap]
  rcases le_or_lt 16384 (m - 1024) with h | h
  · rw [max_eq_right h, roundChunkSize_def]
  · rw [max_eq_left (le_of_lt h), roundChunkSize_sixteen]
    have hflt : ⌊(m - 1024) / 4096⌋ < 4 := by
      rw [Int.floor_lt]
      rw [div_lt_iff₀ (by norm_num : (0 : ℚ) < 4096)]
      push_cast
      linarith
    have hle : ((⌊(m - 1024) / 4096⌋ * 4096 : ℤ) : ℚ) ≤ 12288 := by
      have h3 : ⌊(m - 1024) / 4096⌋ ≤ 3 := by omega
      have : (⌊(m - 1024) / 4096⌋ * 4096 : ℤ) ≤ 3 * 4096 := by
        exact mul_le_mul_of_nonneg_right h3 (by norm_num)
      exact_mod_cast this.trans (by norm_num)
    rw [max_eq_left (hle.trans (by norm_num))]

/-- Counterexample to C1 as stated: at `maxMessageSize = 0` (non-null) the
guard `if (!maxMessageSize)` skips the clamp entirely, so the planner
returns the unclamped 64 KiB base, far above the claimed bound
`max(16 KiB, 4 KiB ⋅ ⌊(0 − 1024) / 4 KiB⌋) = 16 KiB`. -/
theorem buildAdaptiveChunkPlan_zero_limit_counterexample :
    (buildAdaptiveChunkPlan 65536 (some 0) none).chunkSize = 65536 ∧
    specC1MessageLimitCap 0 = 16384 ∧
    ¬ ((buildAdaptiveChunkPlan 65536 (some 0) none).chunkSize ≤
        specC1MessageLimitCap 0) := by
  have h1 : (buildAdaptiveChunkPlan 65536 (some 0) none).chunkSize = 65536 := by
    norm_num [buildAdaptiveChunkPlan, clampChunkSizeByMaxMessageSize,
      chooseChunkSizeByRtt, roundChunkSize, MIN_CHUNK_SIZE_BYTES,
      CHUNK_SIZE_STEP_BYTES, Rat.floor]
  have h2 : specC1MessageLimitCap 0 = 16384 := by
    rw [specC1MessageLimitCap, ← ratFloor_eq_floor]
    norm_num [Rat.floor]
  exact ⟨h1, h2, by rw [h1, h2]; norm_num⟩

/-- C1 (amended): for every base chunk size, RTT sample and message limit
that is not the (falsy) number `0`, the planner's chunk size equals the
RTT-tiered size further clamped by the message-limit cap, and in
particular never exceeds that cap when a limit is present. -/
theorem buildAdaptiveChunkPlan_spec (base : ℚ) (rtt mms : Option ℚ)
    (h : mms ≠ some 0) :
    (buildAdaptiveChunkPlan base mms rtt).chunkSize = specC1ChunkSize base rtt mms ∧
    (∀ m : ℚ, mms = some m →
      (buildAdaptiveChunkPlan base mms rtt).chunkSize ≤ specC1MessageLimitCap m) := by
  have hcs : (buildAdaptiveChunkPlan base mms rtt).chunkSize =
      clampChunkSizeByMaxMessageSize (chooseChunkSizeByRtt base rtt) mms := rfl
  cases mms with
  | none =>
      refine ⟨?_, by intro m hm; cases hm⟩
      rw [hcs]
      simp only [clampChunkSizeByMaxMessageSize, specC1ChunkSize]
      rw [chooseChunkSizeByRtt_round, chooseChunkSizeByRtt_eq_spec]
  | some m =>
      have hm : m ≠ 0 := by
        intro hm0
        exact h (by rw [hm0])
      have heq : (buildAdaptiveChunkPlan base (some m) rtt).chunkSize =
          specC1ChunkSize base rtt (some m) := by
        rw [hcs]
        simp only [clampChunkSizeByMaxMessageSize, specC1ChunkSize, hm, if_false]
        rw [chooseChunkSizeByRtt_round, chooseChunkSizeByRtt_eq_spec,
          roundChunkSize_safeLimit_eq_cap]
      refine ⟨heq, ?_⟩
      intro m' hm'
      cases hm'
      rw [heq]
      exact min_le_right _ _

/-- Closed instance of `buildAdaptiveChunkPlan_spec` at base 64 KiB,
RTT 200 ms, message limit 20000 bytes. -/
theorem buildAdaptiveChunkPlan_spec_witness :
    (buildAdaptiveChunkPlan 65536 (some 20000) (some 200)).chunkSize =
      specC1ChunkSize 65536 (some 200) (some 20000) ∧
    (∀ m : ℚ, (some 20000 : Option ℚ) = some m →
      (buildAdaptiveChunkPlan 65536 (some 20000) (some 200)).chunkSize ≤
        specC1MessageLimitCap m) :=
  buildAdaptiveChunkPlan_spec 65536 (some 200) (some 20000) (by norm_num)

/-!
  ## Claim about the structured event envelope
-/

/-- Counterexample to C8 as stated: a record that carries a string `event`
and finite numeric `timestamp` but also happens to match the standard
envelope shape is parsed by the standard branch; its `kind`, `version` and
`payload` siblings are not folded into the payload, contradicting the
unrestricted legacy clause of the claim. -/
theorem parseStructuredEventEnvelope_standard_counterexample :
    parseStructuredEventEnvelope (JSVal.objV
      [ ("kind", JSVal.strV "peershare.event")
      , ("version", JSVal.numV (JSNum.num 1))
      , ("event", JSVal.strV "x")
      , ("timestamp", JSVal.numV (JSNum.num 0))
      , ("payload", JSVal.objV []) ]) =
      some { event := "x", timestamp := JSNum.num 0, payload := [] } ∧
    parseStructuredEventEnvelope (JSVal.objV
      [ ("kind", JSVal.strV "peershare.event")
      , ("version", JSVal.numV (JSNum.num 1))
      , ("event", JSVal.strV "x")
      , ("timestamp", JSVal.numV (JSNum.num 0))
      , ("payload", JSVal.objV []) ]) ≠
      some (createStructuredEventEnvelope "x"
        (List.filter (fun p => p.1 ≠ "event" ∧ p.1 ≠ "timestamp")
          [ ("kind", JSVal.strV "peershare.event")
          , ("version", JSVal.numV (JSNum.num 1))
          , ("event", JSVal.strV "x")
          , ("timestamp", JSVal.numV (JSNum.num 0))
          , ("payload", JSVal.objV []) ])
        (JSNum.num 0)) := by
  constructor
  · simp [parseStructuredEventEnvelope, parseStandardEnvelope, getField, List.find?,
      JSNum.isFinite]
  · simp [parseStructuredEventEnvelope, parseStandardEnvelope, parseLegacyEnvelope,
      getField, List.find?, JSNum.isFinite, createStructuredEventEnvelope,
      StructuredEventEnvelope.mk.injEq]

/-- C8 (amended): creating an envelope and parsing it back is the
identity for any finite timestamp; and parsing a record with a string
`event` field and a finite numeric `timestamp` field that does *not*
match the standard envelope shape folds all sibling fields into the
payload. -/
theorem structuredEventEnvelope_spec :
    (∀ (e : String) (p : List (String × JSVal)) (t : JSNum), t.isFinite = true →
      parseStructuredEventEnvelope (createStructuredEventEnvelope e p t).toJSVal =
        some (createStructuredEventEnvelope e p t)) ∧
    (∀ (fields : List (String × JSVal)) (e : String) (t : JSNum),
      getField fields "event" = some (JSVal.strV e) →
      getField fields "timestamp" = some (JSVal.numV t) →
      t.isFinite = true →
      parseStandardEnvelope fields = none →
      parseStructuredEventEnvelope (JSVal.objV fields) =
        some (createStructuredEventEnvelope e
          (fields.filter (fun p => p.1 ≠ "event" ∧ p.1 ≠ "timestamp")) t)) := by
  constructor
  · intro e p t ht
    simp [parseStructuredEventEnvelope, parseStandardEnvelope, getField, List.find?,
      StructuredEventEnvelope.toJSVal, createStructuredEventEnvelope, ht]
  · intro fields e t hevent htimestamp ht hstd
    simp [parseStructuredEventEnvelope, hstd, parseLegacyEnvelope, hevent,
      htimestamp, ht, createStructuredEventEnvelope]

/-- Closed instance of `structuredEventEnvelope_spec`: a round trip at a
concrete envelope, and a legacy-shape parse at a concrete record. -/
theorem structuredEventEnvelope_spec_witness :
    parseStructuredEventEnvelope
      (createStructuredEventEnvelope "evt" [("k", JSVal.strV "v")] (JSNum.num 5)).toJSVal =
      some (createStructuredEventEnvelope "evt" [("k", JSVal.strV "v")] (JSNum.num 5)) ∧
    parseStructuredEventEnvelope (JSVal.objV
      [ ("event", JSVal.strV "legacy")
      , ("timestamp", JSVal.numV (JSNum.num 3))
      , ("extra", JSVal.strV "kept") ]) =
      some (createStructuredEventEnvelope "legacy"
        (List.filter (fun p => p.1 ≠ "event" ∧ p.1 ≠ "timestamp")
          [ ("event", JSVal.strV "legacy")
          , ("timestamp", JSVal.numV (JSNum.num 3))
          , ("extra", JSVal.strV "kept") ])
        (JSNum.num 3)) := by
  constructor
  · exact structuredEventEnvelope_spec.1 "evt" [("k", JSVal.strV "v")] (JSNum.num 5) rfl
  · exact structuredEventEnvelope_spec.2
      [ ("event", JSVal.strV "legacy")
      , ("timestamp", JSVal.numV (JSNum.num 3))
      , ("extra", JSVal.strV "kept") ] "legacy" (JSNum.num 3) rfl rfl rfl rfl

/-!
  ## Claim about the receive-side retransmit reset
-/

/-- Auxiliary: against a natural chunk count, `normalizeChunkIndex`
produces a natural start chunk bounded by the count. -/
theorem normalizeChunkIndex_nat (x : JSNum) (n : ℕ) :
    ∃ k : ℕ, k ≤ n ∧ normalizeChunkIndex x (JSNum.num (n : ℚ)) = JSNum.num (k : ℚ) := by
  cases x with
  | nan => exact ⟨0, Nat.zero_le n, by simp [normalizeChunkIndex, JSNum.isFinite]⟩
  | posInf => exact ⟨0, Nat.zero_le n, by simp [normalizeChunkIndex, JSNum.isFinite]⟩
  | negInf => exact ⟨0, Nat.zero_le n, by simp [normalizeChunkIndex, JSNum.isFinite]⟩
  | num q =>
      by_cases hq0 : q ≤ 0
      · exact ⟨0, Nat.zero_le n,
          by simp [normalizeChunkIndex, JSNum.isFinite, JSNum.le, hq0]⟩
      · push_neg at hq0
        by_cases hge : (n : ℚ) ≤ q
        · exact ⟨n, le_refl n,
            by simp [normalizeChunkIndex, JSNum.isFinite, JSNum.le, JSNum.ge,
              not_le.mpr hq0, hge]⟩
        · push_neg at hge
          refine ⟨(⌊q⌋).toNat, ?_, ?_⟩
          · have hfl : ⌊q⌋ < (n : ℤ) := by
              rw [Int.floor_lt]
              exact_mod_cast hge
            omega
          · have hres : normalizeChunkIndex (JSNum.num q) (JSNum.num (n : ℚ)) =
                JSNum.num (⌊q⌋ : ℤ) := by
              simp [normalizeChunkIndex, JSNum.isFinite, JSNum.le, JSNum.ge, JSNum.floor,
                not_le.mpr hq0, not_le.mpr hge, ratFloor_eq_floor]
            rw [hres]
            have h0 : (0 : ℤ) ≤ ⌊q⌋ := Int.floor_nonneg.mpr (le_of_lt hq0)
            have : ((⌊q⌋).toNat : ℤ) = ⌊q⌋ := Int.toNat_of_nonneg h0
            congr 1
            exact_mod_cast this.symm

/-- Auxiliary: `array.slice(0, k)` for a natural `k` is `take k`. -/
theorem jsSliceEnd_natCast {α : Type} (l : List α) (k : ℕ) :
    jsSliceEnd l (JSNum.num (k : ℚ)) = l.take k := by
  have hk0 : ¬ ((k : ℚ) < 0) := not_lt.mpr (by positivity)
  have hfl : Rat.floor ((k : ℚ)) = (k : ℤ) := by
    rw [ratFloor_eq_floor]
    exact_mod_cast Int.floor_natCast k
  simp [jsSliceEnd, hk0, hfl]

/-- Auxiliary: the session upsert never touches the chunk table. -/
theorem upsertPersistedSession_chunks (st : TransferStoreState)
    (storeSupported : Bool) (direction : TransferDirection) (metadata : FileMetadata)
    (remotePeerId : String) (status : PersistedTransferStatus)
    (nextChunkIndex bytesTransferred : JSNum) (options : UpsertOptions) (now : ℚ) :
    (upsertPersistedSession st storeSupported direction metadata remotePeerId status
      nextChunkIndex bytesTransferred options now).chunks = st.chunks := by
  unfold upsertPersistedSession putSession
  split <;> rfl

/-- C3: `requestRetransmit(transfer, fromChunk, reason)` sets
`receivedChunks` and `expectedChunkIndex` to
`normalizeChunkIndex(fromChunk, totalChunks)`, sets `bytesReceived` to
`bytesForChunkIndex` of that start chunk, truncates `chunkChecksums` to
that length, and (for a supported store whose chunk keys are valid
IndexedDB numeric keys, i.e. at most `Number.MAX_SAFE_INTEGER`) deletes
every persisted chunk of that `uploadId` with index at least the start
chunk. -/
theorem requestRetransmit_resets_spec (transfer : IncomingTransferState)
    (fromChunk : JSNum) (reason : String) (st : TransferStoreState)
    (inMemory : List (String × List (List ℕ))) (remotePeerId : String)
    (channelReady : Bool) (now : ℚ) (n : ℕ)
    (hTC : transfer.metadata.totalChunks = JSNum.num (n : ℚ))
    (hWF : ∀ c ∈ st.chunks, c.chunkIndex ≤ MAX_SAFE_INTEGER) :
    (requestRetransmit transfer fromChunk reason st true inMemory remotePeerId
        channelReady now).transfer.receivedChunks =
      normalizeChunkIndex fromChunk transfer.metadata.totalChunks ∧
    (requestRetransmit transfer fromChunk reason st true inMemory remotePeerId
        channelReady now).transfer.expectedChunkIndex =
      normalizeChunkIndex fromChunk transfer.metadata.totalChunks ∧
    (requestRetransmit transfer fromChunk reason st true inMemory remotePeerId
        channelReady now).transfer.bytesReceived =
      bytesForChunkIndex (normalizeChunkIndex fromChunk transfer.metadata.totalChunks)
        transfer.metadata.chunkSize transfer.metadata.size ∧
    (∃ k : ℕ, k ≤ n ∧
      normalizeChunkIndex fromChunk transfer.metadata.totalChunks = JSNum.num (k : ℚ) ∧
      (requestRetransmit transfer fromChunk reason st true inMemory remotePeerId
          channelReady now).transfer.chunkChecksums =
        transfer.chunkChecksums.take k ∧
      (∀ c ∈ (requestRetransmit transfer fromChunk reason st true inMemory remotePeerId
          channelReady now).store.chunks,
        c.uploadId = transfer.uploadId → c.chunkIndex < (k : ℚ))) := by
  obtain ⟨k, hk, hknat⟩ := by
    have := normalizeChunkIndex_nat fromChunk n
    rwa [← hTC] at this
  refine ⟨rfl, rfl, rfl, k, hk, hknat, ?_, ?_⟩
  · show jsSliceEnd transfer.chunkChecksums
        (normalizeChunkIndex fromChunk transfer.metadata.totalChunks) =
      transfer.chunkChecksums.take k
    rw [hknat, jsSliceEnd_natCast]
  · intro c hc hcup
    have hchunks : (requestRetransmit transfer fromChunk reason st true inMemory
        remotePeerId channelReady now).store.chunks =
        (deleteChunksFrom st transfer.uploadId
          (normalizeChunkIndex fromChunk transfer.metadata.totalChunks)).chunks := by
      show (upsertPersistedSession _ true _ _ _ _ _ _ _ _).chunks = _
      rw [upsertPersistedSession_chunks]
      simp
    rw [hchunks, hknat] at hc
    simp only [deleteChunksFrom, List.mem_filter] at hc
    obtain ⟨hmem, hkeep⟩ := hc
    have hmax : JSNum.max2 (JSNum.num 0) (JSNum.num (k : ℚ)) = JSNum.num (k : ℚ) := by
      have h0 : (0 : ℚ) ≤ (k : ℚ) := by positivity
      simp [JSNum.max2, JSNum.le, h0]
    rw [hmax] at hkeep
    simp only [Bool.not_eq_true', Bool.and_eq_false_iff] at hkeep
    rcases hkeep with (h1 | h2) | h3
    · exact absurd (by simpa using hcup) (by simpa using h1)
    · have : ¬ ((k : ℚ) ≤ c.chunkIndex) := by
        simpa [JSNum.le] using h2
      exact not_le.mp this
    · have : ¬ (c.chunkIndex ≤ MAX_SAFE_INTEGER) := by
        simpa [JSNum.le] using h3
      exact absurd (hWF c hmem) this

/-- Closed instance of `requestRetransmit_resets_spec`: a two-chunk store
reset to chunk 1. -/
theorem requestRetransmit_resets_witness :
    (requestRetransmit
      { metadata := { id := "u", name := "f", size := JSNum.num 8, mimeType := ""
                    , totalChunks := JSNum.num 2, chunkSize := JSNum.num 4
                    , uploadId := some "u", protocolVersion := some (JSNum.num 2)
                    , fileChecksum := none, fingerprint := none }
      , receivedChunks := JSNum.num 2, bytesReceived := JSNum.num 8
      , expectedChunkIndex := JSNum.num 2, ready := true, uploadId := "u"
      , expectedFileChecksum := none, chunkChecksums := ["c0", "c1"]
      , hasPersistenceError := false }
      (JSNum.num 1) "missing_chunks"
      { sessions := []
      , chunks := [ { uploadId := "u", chunkIndex := 0, data := [1], checksum := "c0"
                    , size := 1, updatedAt := 0 }
                  , { uploadId := "u", chunkIndex := 1, data := [2], checksum := "c1"
                    , size := 1, updatedAt := 0 } ] }
      true [] "p" true 9).transfer.receivedChunks =
      normalizeChunkIndex (JSNum.num 1)
        ({ id := "u", name := "f", size := JSNum.num 8, mimeType := ""
         , totalChunks := JSNum.num 2, chunkSize := JSNum.num 4
         , uploadId := some "u", protocolVersion := some (JSNum.num 2)
         , fileChecksum := none, fingerprint := none } : FileMetadata).totalChunks :=
  (requestRetransmit_resets_spec
    { metadata := { id := "u", name := "f", size := JSNum.num 8, mimeType := ""
                  , totalChunks := JSNum.num 2, chunkSize := JSNum.num 4
                  , uploadId := some "u", protocolVersion := some (JSNum.num 2)
                  , fileChecksum := none, fingerprint := none }
    , receivedChunks := JSNum.num 2, bytesReceived := JSNum.num 8
    , expectedChunkIndex := JSNum.num 2, ready := true, uploadId := "u"
    , expectedFileChecksum := none, chunkChecksums := ["c0", "c1"]
    , hasPersistenceError := false }
    (JSNum.num 1) "missing_chunks"
    { sessions := []
    , chunks := [ { uploadId := "u", chunkIndex := 0, data := [1], checksum := "c0"
                  , size := 1, updatedAt := 0 }
                , { uploadId := "u", chunkIndex := 1, data := [2], checksum := "c1"
                  , size := 1, updatedAt := 0 } ] }
    [] "p" true 9 2 (by norm_num) (by
      intro c hc
      simp only [List.mem_cons, List.not_mem_nil, or_false] at hc
      rcases hc with h | h <;> rw [h] <;> norm_num [MAX_SAFE_INTEGER])).1

/-!
  ## Claim about offer validation
-/

/-- C4: an offer whose `id` is missing or not a non-empty string is
answered with an `INVALID_FILE_ID` transfer error, and an offer whose
`chunkSize` is not a number, non-positive or below the 16 KiB minimum, or
whose `size` is not a number or negative, is answered with an
`INVALID_METADATA` transfer error; in both cases the handler leaves every
piece of state untouched, registers no incoming transfer, and sends no
`receiver-ready`. -/
theorem handleIncomingFileOffer_invalid_spec (raw : RawFileMetadata)
    (st : TransferStoreState) (storeSupported : Bool)
    (inMemory : List (String × List (List ℕ)))
    (incomingTransfers : List (String × IncomingTransferState))
    (currentReceivingFileId : Option String) (remotePeerId : String) (now : ℚ) :
    (offerIdInvalid raw = true →
      handleIncomingFileOffer raw st storeSupported inMemory incomingTransfers
          currentReceivingFileId remotePeerId now =
        { transferErrors := [("", "INVALID_FILE_ID", "Invalid fileId")]
        , currentReceivingFileId := currentReceivingFileId
        , store := st, inMemoryChunks := inMemory
        , incomingTransfers := incomingTransfers
        , receiverReady := none, offerCallback := none }) ∧
    (offerIdInvalid raw = false → offerMetadataInvalid raw = true →
      ∃ s, raw.id = JSVal.strV s ∧ s ≠ "" ∧
        handleIncomingFileOffer raw st storeSupported inMemory incomingTransfers
            currentReceivingFileId remotePeerId now =
          { transferErrors := [(s, "INVALID_METADATA", "Invalid metadata")]
          , currentReceivingFileId := currentReceivingFileId
          , store := st, inMemoryChunks := inMemory
          , incomingTransfers := incomingTransfers
          , receiverReady := none, offerCallback := none }) := by
  constructor
  · intro h
    simp [handleIncomingFileOffer, h]
  · intro h1 h2
    have hid : ∃ s, raw.id = JSVal.strV s ∧ s ≠ "" := by
      have := h1
      unfold offerIdInvalid at this
      cases hcase : raw.id with
      | strV s =>
          refine ⟨s, rfl, ?_⟩
          rw [hcase] at this
          simp [JSVal.truthy, JSVal.isStringV] at this
          exact this
      | undef => rw [hcase] at this; simp [JSVal.truthy, JSVal.isStringV] at this
      | nullV => rw [hcase] at this; simp [JSVal.truthy, JSVal.isStringV] at this
      | boolV b => rw [hcase] at this; simp [JSVal.truthy, JSVal.isStringV] at this
      | numV m => rw [hcase] at this; simp [JSVal.truthy, JSVal.isStringV] at this
      | arrV l => rw [hcase] at this; simp [JSVal.truthy, JSVal.isStringV] at this
      | objV l => rw [hcase] at this; simp [JSVal.truthy, JSVal.isStringV] at this
    obtain ⟨s, hs, hne⟩ := hid
    refine ⟨s, hs, hne, ?_⟩
    simp [handleIncomingFileOffer, h1, h2, hs]

/-- Closed instance of `handleIncomingFileOffer_invalid_spec`: a 1 KiB
`chunkSize` (below the 16 KiB minimum) is answered with
`INVALID_METADATA` and no state change. -/
theorem handleIncomingFileOffer_invalid_witness :
    ∃ s, (JSVal.strV "file1") = JSVal.strV s ∧ s ≠ "" ∧
      handleIncomingFileOffer
        { id := JSVal.strV "file1", name := "f", size := JSVal.numV (JSNum.num 10)
        , mimeType := "", chunkSize := JSVal.numV (JSNum.num 1024)
        , uploadId := none, protocolVersion := none
        , fileChecksum := none, fingerprint := none }
        { sessions := [], chunks := [] } true [] [] none "p" 0 =
        { transferErrors := [(s, "INVALID_METADATA", "Invalid metadata")]
        , currentReceivingFileId := none
        , store := { sessions := [], chunks := [] }, inMemoryChunks := []
        , incomingTransfers := []
        , receiverReady := none, offerCallback := none } :=
  (handleIncomingFileOffer_invalid_spec
    { id := JSVal.strV "file1", name := "f", size := JSVal.numV (JSNum.num 10)
    , mimeType := "", chunkSize := JSVal.numV (JSNum.num 1024)
    , uploadId := none, protocolVersion := none
    , fileChecksum := none, fingerprint := none }
    { sessions := [], chunks := [] } true [] [] none "p" 0).2 (by decide) (by decide)

/-!
  ## Claim about the single-sending invariant

  The reducer accepts arbitrary `enqueue` payloads, so the invariant needs
  the enqueue batches to be well-formed: freshly created items (as
  `createOutgoingQueueItems` produces them) are `queued` and carry fresh,
  pairwise-distinct ids.
-/

theorem countP_map_congr {α : Type} (l : List α) (f : α → α) (p q : α → Bool)
    (h : ∀ x ∈ l, p (f x) = q x) : (l.map f).countP p = l.countP q := by
  induction l with
  | nil => simp
  | cons a as ih =>
      simp only [List.map_cons, List.countP_cons, h a (List.mem_cons_self a as)]
      rw [ih (fun x hx => h x (List.mem_cons_of_mem a hx))]

theorem countP_map_le {α : Type} (l : List α) (f : α → α) (p q : α → Bool)
    (h : ∀ x ∈ l, p (f x) = true → q x = true) :
    (l.map f).countP p ≤ l.countP q := by
  induction l with
  | nil => simp
  | cons a as ih =>
      simp only [List.map_cons, List.countP_cons]
      have hrest := ih (fun x hx => h x (List.mem_cons_of_mem a hx))
      by_cases hpa : p (f a) = true
      · rw [h a (List.mem_cons_self a as) hpa]
        simpa [hpa] using Nat.add_le_add_right hrest 1
      · have : (if p (f a) then 1 else 0) = 0 := by simp [hpa]
        rw [this]
        refine le_trans (by omega) (Nat.add_le_add hrest (Nat.zero_le _))

theorem countP_id_le_one (l : List OutgoingQueueItem)
    (h : (l.map (fun it => it.id)).Nodup) (tid : String) :
    l.countP (fun it => it.id == tid) ≤ 1 := by
  induction l with
  | nil => simp
  | cons a as ih =>
      rw [List.map_cons, List.nodup_cons] at h
      obtain ⟨hnotin, hnd⟩ := h
      rw [List.countP_cons]
      by_cases hid : a.id = tid
      · have hzero : as.countP (fun it => it.id == tid) = 0 := by
          rw [List.countP_eq_zero]
          intro x hx
          simp only [beq_iff_eq]
          intro hxid
          exact hnotin (by
            rw [← hid] at hxid
            exact List.mem_map.mpr ⟨x, hx, hxid⟩)
        simp [hzero, hid]
      · have hle := ih hnd
        simp [hid]
        exact hle

/-- Generic step: a per-item update that keeps ids and never promotes an
item into `sending` preserves the invariant. -/
theorem sendQueue_inv_map_mono (items : List OutgoingQueueItem)
    (f : OutgoingQueueItem → OutgoingQueueItem)
    (hid : ∀ x, (f x).id = x.id)
    (hst : ∀ x, ((f x).status == OutgoingQueueItemStatus.sending) = true →
      (x.status == OutgoingQueueItemStatus.sending) = true)
    (hn : (items.map (fun it => it.id)).Nodup)
    (hc : items.countP (fun it => it.status == OutgoingQueueItemStatus.sending) ≤ 1) :
    ((items.map f).map (fun it => it.id)).Nodup ∧
    (items.map f).countP (fun it => it.status == OutgoingQueueItemStatus.sending) ≤ 1 := by
  constructor
  · rw [List.map_map]
    have : (fun it => it.id) ∘ f = fun it => it.id := by
      funext x
      exact hid x
    rw [this]
    exact hn
  · exact le_trans (countP_map_le items f _ _ (fun x _ => hst x)) hc

/-- Generic step for `mark-sending`: after the map, an item is `sending`
exactly when its id is the target, so distinct ids bound the count by 1. -/
theorem sendQueue_inv_map_markSending (items : List OutgoingQueueItem)
    (f : OutgoingQueueItem → OutgoingQueueItem) (tid : String)
    (hid : ∀ x, (f x).id = x.id)
    (hst : ∀ x, ((f x).status == OutgoingQueueItemStatus.sending) = (x.id == tid))
    (hn : (items.map (fun it => it.id)).Nodup) :
    ((items.map f).map (fun it => it.id)).Nodup ∧
    (items.map f).countP (fun it => it.status == OutgoingQueueItemStatus.sending) ≤ 1 := by
  constructor
  · rw [List.map_map]
    have : (fun it => it.id) ∘ f = fun it => it.id := by
      funext x
      exact hid x
    rw [this]
    exact hn
  · rw [countP_map_congr items f _ (fun it => it.id == tid) (fun x _ => hst x)]
    exact countP_id_le_one items hn tid

/-- The strengthened invariant: reachable states have pairwise-distinct
item ids and at most one `sending` item. -/
theorem sendQueue_inv_of_ok (s : SendQueueState) (h : SendQueueOkReachable s) :
    (s.items.map (fun it => it.id)).Nodup ∧ countSending s ≤ 1 := by
  induction h with
  | init => exact ⟨by simp [createInitialSendQueueState], by simp [createInitialSendQueueState, countSending]⟩
  | step s now a hr hok ih =>
      obtain ⟨ihn, ihc⟩ := ih
      cases a with
      | enqueue newItems =>
          obtain ⟨hq, hnd, hfresh⟩ := hok
          by_cases hlen : newItems.length = 0
          · simpa [sendQueueReducer, hlen, countSending] using ⟨ihn, ihc⟩
          · simp only [sendQueueReducer, hlen, if_false, withRevision, countSending]
            constructor
            · rw [List.map_append, List.nodup_append]
              refine ⟨ihn, hnd, ?_⟩
              intro x hx hy
              obtain ⟨ox, hox, hoxid⟩ := List.mem_map.mp hx
              obtain ⟨oy, hoy, hoyid⟩ := List.mem_map.mp hy
              exact hfresh oy hoy ox hox (hoxid.trans hoyid.symm)
            · rw [List.countP_append]
              have hzero : newItems.countP
                  (fun it => it.status == OutgoingQueueItemStatus.sending) = 0 := by
                rw [List.countP_eq_zero]
                intro x hx
                simp [hq x hx]
              rw [hzero]
              simpa [countSending] using ihc
      | markSending itemId =>
          simp only [sendQueueReducer]
          split
          · simp only [withRevision, countSending]
            refine sendQueue_inv_map_markSending s.items _ itemId ?_ ?_ ihn
            · intro x
              by_cases hxid : x.id = itemId
              · simp [hxid]
              · by_cases hxst : x.status = OutgoingQueueItemStatus.sending
                · simp [hxid, hxst]
                · simp [hxid, hxst]
            · intro x
              by_cases hxid : x.id = itemId
              · simp [hxid]
              · by_cases hxst : x.status = OutgoingQueueItemStatus.sending
                · simp [hxid, hxst]
                · simp [hxid, hxst]
          · exact ⟨ihn, ihc⟩
      | updateProgress itemId sentBytes totalBytes =>
          simp only [sendQueueReducer, withRevision, countSending]
          refine sendQueue_inv_map_mono s.items _ ?_ ?_ ihn ihc
          · intro x
            split <;> rfl
          · intro x
            split
            · exact fun hx => hx
            · exact fun hx => hx
      | markCompleted itemId =>
          simp only [sendQueueReducer]
          split
          · simp only [withRevision, countSending]
            refine sendQueue_inv_map_mono s.items _ ?_ ?_ ihn ihc
            · intro x
              split <;> rfl
            · intro x
              split
              · exact fun hx => hx
              · intro hx
                simp at hx
          · exact ⟨ihn, ihc⟩
      | markFailed itemId errorMessage =>
          simp only [sendQueueReducer]
          split
          · simp only [withRevision, countSending]
            refine sendQueue_inv_map_mono s.items _ ?_ ?_ ihn ihc
            · intro x
              split <;> rfl
            · intro x
              split
              · exact fun hx => hx
              · intro hx
                simp at hx
          · exact ⟨ihn, ihc⟩
      | retry itemId =>
          simp only [sendQueueReducer]
          split
          · simp only [withRevision, countSending]
            refine sendQueue_inv_map_mono s.items _ ?_ ?_ ihn ihc
            · intro x
              split <;> rfl
            · intro x
              split
              · exact fun hx => hx
              · intro hx
                simp at hx
          · exact ⟨ihn, ihc⟩
      | remove itemId =>
          simp only [sendQueueReducer]
          split
          · exact ⟨ihn, ihc⟩
          · split
            · exact ⟨ihn, ihc⟩
            · simp only [withRevision, countSending]
              constructor
              · have hsub : (s.items.filter (fun item => item.id ≠ itemId)).Sublist s.items :=
                  List.filter_sublist s.items
                exact List.Nodup.sublist (hsub.map (fun it => it.id)) ihn
              · exact le_trans
                  ((List.filter_sublist s.items).countP_le _) ihc
      | clearCompleted =>
          simp only [sendQueueReducer]
          split
          · exact ⟨ihn, ihc⟩
          · simp only [withRevision, countSending]
            constructor
            · have hsub : (s.items.filter
                  (fun item => item.status ≠ OutgoingQueueItemStatus.completed)).Sublist
                  s.items := List.filter_sublist s.items
              exact List.Nodup.sublist (hsub.map (fun it => it.id)) ihn
            · exact le_trans ((List.filter_sublist s.items).countP_le _) ihc
      | reset =>
          simp only [sendQueueReducer]
          split
          · exact ⟨ihn, ihc⟩
          · exact ⟨by simp, by simp [countSending]⟩

/-- Counterexample to C5 as stated: the reducer accepts an `enqueue`
action whose payload items already carry status `sending`, so a single
reducer step from the initial state yields two `sending` items. -/
theorem sendQueue_two_sending_counterexample :
    SendQueueReachable (sendQueueReducer createInitialSendQueueState 0
      (SendQueueAction.enqueue
        [ { id := "a", file := { name := "f", size := 1 }
          , status := OutgoingQueueItemStatus.sending, sentBytes := 0, totalBytes := 1
          , progressPercent := 0, attempts := 1, errorMessage := none, addedAt := 0
          , startedAt := some 0, finishedAt := none }
        , { id := "b", file := { name := "g", size := 1 }
          , status := OutgoingQueueItemStatus.sending, sentBytes := 0, totalBytes := 1
          , progressPercent := 0, attempts := 1, errorMessage := none, addedAt := 0
          , startedAt := some 0, finishedAt := none } ])) ∧
    countSending (sendQueueReducer createInitialSendQueueState 0
      (SendQueueAction.enqueue
        [ { id := "a", file := { name := "f", size := 1 }
          , status := OutgoingQueueItemStatus.sending, sentBytes := 0, totalBytes := 1
          , progressPercent := 0, attempts := 1, errorMessage := none, addedAt := 0
          , startedAt := some 0, finishedAt := none }
        , { id := "b", file := { name := "g", size := 1 }
          , status := OutgoingQueueItemStatus.sending, sentBytes := 0, totalBytes := 1
          , progressPercent := 0, attempts := 1, errorMessage := none, addedAt := 0
          , startedAt := some 0, finishedAt := none } ])) = 2 :=
  ⟨SendQueueReachable.step createInitialSendQueueState 0 _ SendQueueReachable.init,
   by decide⟩

/-- C5 (amended): every state reachable from the initial state by reducer
actions whose `enqueue` payloads are well-formed (queued status, fresh
distinct ids, as `createOutgoingQueueItems` produces them) has at most one
`sending` item; in particular `mark-sending` demotes any concurrent
`sending` item. -/
theorem sendQueue_at_most_one_sending (s : SendQueueState)
    (h : SendQueueOkReachable s) : countSending s ≤ 1 :=
  (sendQueue_inv_of_ok s h).2

/-- Closed instance of `sendQueue_at_most_one_sending` after an enqueue
followed by `mark-sending`. -/
theorem sendQueue_at_most_one_sending_witness :
    countSending (sendQueueReducer
      (sendQueueReducer createInitialSendQueueState 0
        (SendQueueAction.enqueue
          [ { id := "a", file := { name := "f", size := 1 }
            , status := OutgoingQueueItemStatus.queued, sentBytes := 0, totalBytes := 1
            , progressPercent := 0, attempts := 0, errorMessage := none, addedAt := 0
            , startedAt := none, finishedAt := none } ]))
      1 (SendQueueAction.markSending "a")) ≤ 1 :=
  sendQueue_at_most_one_sending _
    (SendQueueOkReachable.step _ 1 _
      (SendQueueOkReachable.step _ 0 _ SendQueueOkReachable.init
        (show okEnqueue _ _ by decide))
      trivial)

/-!
  ## Claim about the streaming finalizer
-/

theorem checksumMismatchCheck_iff (expected : Option String) (fc : String) :
    checksumMismatchCheck expected fc = true ↔
      ∃ e, expected = some e ∧ e ≠ "" ∧ fc ≠ e := by
  cases expected with
  | none => simp [checksumMismatchCheck]
  | some e => simp [checksumMismatchCheck]

theorem jsLoopCount_natCast (n : ℕ) (fallback : ℕ) :
    jsLoopCount (JSNum.num (n : ℚ)) fallback = n := by
  have hceil : Rat.ceil ((n : ℚ)) = (n : ℤ) := by
    rw [ratCeil_eq_ceil]
    exact_mod_cast Int.ceil_natCast n
  simp [jsLoopCount, hceil]

/-- The finalize loop fails with the first missing index, aborting the
sink. -/
theorem finalizeLoop_missing (hashText : String → String) (st : TransferStoreState)
    (uploadId : String) (mimeType : String) (expected : Option String) :
    ∀ (g i fuel : ℕ) (checksums : List String) (written : List (List ℕ)),
    g < fuel →
    getChunk st uploadId ((i + g : ℕ) : ℚ) = none →
    (∀ j : ℕ, j < g → (getChunk st uploadId ((i + j : ℕ) : ℚ)).isSome) →
    finalizeLoop hashText st uploadId mimeType expected i fuel checksums written =
      (FinalizeFromStoreResult.missingChunk (i + g), { chunks := [], aborted := true }) := by
  intro g
  induction g with
  | zero =>
      intro i fuel checksums written hlt hmiss _
      obtain ⟨fuel', rfl⟩ : ∃ fuel', fuel = fuel' + 1 :=
        ⟨fuel - 1, by omega⟩
      simp only [Nat.add_zero] at hmiss
      simp [finalizeLoop, hmiss]
  | succ g ih =>
      intro i fuel checksums written hlt hmiss hsome
      obtain ⟨fuel', rfl⟩ : ∃ fuel', fuel = fuel' + 1 :=
        ⟨fuel - 1, by omega⟩
      have h0 : (getChunk st uploadId ((i + 0 : ℕ) : ℚ)).isSome := hsome 0 (by omega)
      simp only [Nat.add_zero] at h0
      obtain ⟨c, hc⟩ := Option.isSome_iff_exists.mp h0
      have hstep := ih (i + 1) fuel' (checksums ++ [c.checksum]) (written ++ [c.data])
        (by omega)
        (by
          have : i + 1 + g = i + (g + 1) := by omega
          rw [this]
          exact hmiss)
        (by
          intro j hj
          have : i + 1 + j = i + (j + 1) := by omega
          rw [this]
          exact hsome (j + 1) (by omega))
      simp only [finalizeLoop, hc]
      rw [hstep]
      have : i + 1 + g = i + (g + 1) := by omega
      rw [this]

/-- The finalize loop over fully-present chunks accumulates their
checksums and bytes in index order, then closes or aborts by the checksum
comparison. -/
theorem finalizeLoop_present (hashText : String → String) (st : TransferStoreState)
    (uploadId : String) (mimeType : String) (expected : Option String) :
    ∀ (fuel i : ℕ) (recs : List PersistedChunkRecord)
      (checksums : List String) (written : List (List ℕ)),
    collectChunks st uploadId i fuel = some recs →
    finalizeLoop hashText st uploadId mimeType expected i fuel checksums written =
      (let fc := deriveFileChecksumFromChunkChecksums hashText
        (checksums ++ recs.map (fun c => c.checksum))
      if checksumMismatchCheck expected fc then
        (FinalizeFromStoreResult.checksumMismatch fc, { chunks := [], aborted := true })
      else
        (FinalizeFromStoreResult.success
          { data := (written ++ recs.map (fun c => c.data)).flatten, mimeType := mimeType }
          fc FinalizeStorageMode.memory,
         { chunks := written ++ recs.map (fun c => c.data), aborted := false })) := by
  intro fuel
  induction fuel with
  | zero =>
      intro i recs checksums written hcol
      simp only [collectChunks, Option.some.injEq] at hcol
      subst hcol
      simp [finalizeLoop]
  | succ fuel ih =>
      intro i recs checksums written hcol
      rw [collectChunks] at hcol
      cases hget : getChunk st uploadId (i : ℚ) with
      | none => rw [hget] at hcol; cases hcol
      | some c =>
          rw [hget] at hcol
          cases hrest : collectChunks st uploadId (i + 1) fuel with
          | none => rw [hrest] at hcol; cases hcol
          | some rest =>
              rw [hrest] at hcol
              have hrec : recs = c :: rest := by simpa using hcol.symm
              subst hrec
              simp only [finalizeLoop, hget]
              rw [ih (i + 1) rest (checksums ++ [c.checksum]) (written ++ [c.data]) hrest]
              simp [List.append_assoc]

/-- Counterexample to C2 as stated: with `expectedChecksum` provided as
the empty string, the truthiness guard `if (expectedChecksum && …)` skips
the comparison, so a transfer whose computed checksum differs from the
provided one still finalizes successfully instead of returning
`checksum_mismatch`. -/
theorem finalize_empty_expected_counterexample :
    deriveFileChecksumFromChunkChecksums fnvHashText [] = "811c9dc5" ∧
    ("811c9dc5" : String) ≠ "" ∧
    finalizeIncomingTransferFromStore fnvHashText { sessions := [], chunks := [] } "u"
      { id := "u", name := "f", size := JSNum.num 0, mimeType := ""
      , totalChunks := JSNum.num 0, chunkSize := JSNum.num 65536
      , uploadId := some "u", protocolVersion := some (JSNum.num 2)
      , fileChecksum := none, fingerprint := none } (some "") =
      (FinalizeFromStoreResult.success { data := [], mimeType := "" } "811c9dc5"
        FinalizeStorageMode.memory, { chunks := [], aborted := false }) := by
  refine ⟨by decide, by decide, ?_⟩
  decide

/-- C2 (amended): finalizing from the store returns `{missing_chunk: i}`
for the smallest missing index (aborting the sink); with all chunks
present it derives the file checksum from the stored per-chunk checksums
in index order, returns `{checksum_mismatch, computed}` and aborts the
sink exactly when `expectedChecksum` is provided *non-empty* and differs,
and otherwise returns the reassembled blob with that checksum and the
`memory` storage mode. -/
theorem finalizeIncomingTransferFromStore_spec (hashText : String → String)
    (st : TransferStoreState) (uploadId : String) (metadata : FileMetadata)
    (expected : Option String) (n : ℕ)
    (hTC : metadata.totalChunks = JSNum.num (n : ℚ)) :
    (∀ g : ℕ, g < n → getChunk st uploadId (g : ℚ) = none →
      (∀ j : ℕ, j < g → (getChunk st uploadId (j : ℚ)).isSome) →
      finalizeIncomingTransferFromStore hashText st uploadId metadata expected =
        (FinalizeFromStoreResult.missingChunk g, { chunks := [], aborted := true })) ∧
    (∀ recs : List PersistedChunkRecord, collectChunks st uploadId 0 n = some recs →
      ((∃ e, expected = some e ∧ e ≠ "" ∧
          deriveFileChecksumFromChunkChecksums hashText
            (recs.map (fun c => c.checksum)) ≠ e) →
        finalizeIncomingTransferFromStore hashText st uploadId metadata expected =
          (FinalizeFromStoreResult.checksumMismatch
            (deriveFileChecksumFromChunkChecksums hashText
              (recs.map (fun c => c.checksum))),
           { chunks := [], aborted := true })) ∧
      (¬ (∃ e, expected = some e ∧ e ≠ "" ∧
          deriveFileChecksumFromChunkChecksums hashText
            (recs.map (fun c => c.checksum)) ≠ e) →
        finalizeIncomingTransferFromStore hashText st uploadId metadata expected =
          (FinalizeFromStoreResult.success
            { data := (recs.map (fun c => c.data)).flatten
            , mimeType := metadata.mimeType }
            (deriveFileChecksumFromChunkChecksums hashText
              (recs.map (fun c => c.checksum)))
            FinalizeStorageMode.memory,
           { chunks := recs.map (fun c => c.data), aborted := false }))) := by
  have hfuel : jsLoopCount metadata.totalChunks (st.chunks.length + 1) = n := by
    rw [hTC, jsLoopCount_natCast]
  constructor
  · intro g hg hmiss hsome
    have := finalizeLoop_missing hashText st uploadId metadata.mimeType expected g 0 n
      [] [] (by omega)
      (by simpa using hmiss)
      (by
        intro j hj
        simpa using hsome j hj)
    rw [finalizeIncomingTransferFromStore, hfuel]
    simpa using this
  · intro recs hcol
    have hloop := finalizeLoop_present hashText st uploadId metadata.mimeType expected
      n 0 recs [] [] hcol
    rw [finalizeIncomingTransferFromStore, hfuel, hloop]
    constructor
    · intro hmm
      have : checksumMismatchCheck expected
          (deriveFileChecksumFromChunkChecksums hashText
            (recs.map (fun c => c.checksum))) = true :=
        (checksumMismatchCheck_iff _ _).mpr (by simpa using hmm)
      simp [this]
    · intro hmm
      have : checksumMismatchCheck expected
          (deriveFileChecksumFromChunkChecksums hashText
            (recs.map (fun c => c.checksum))) = false := by
        rw [← Bool.not_eq_true]
        intro hcontra
        exact hmm (by simpa using (checksumMismatchCheck_iff _ _).mp hcontra)
      simp [this]

/-- Closed instance of `finalizeIncomingTransferFromStore_spec`: a
one-chunk store finalizes successfully with the FNV-derived checksum. -/
theorem finalizeIncomingTransferFromStore_spec_witness :
    finalizeIncomingTransferFromStore fnvHashText
      { sessions := []
      , chunks := [ { uploadId := "u", chunkIndex := 0, data := [7], checksum := "c0"
                    , size := 1, updatedAt := 0 } ] } "u"
      { id := "u", name := "f", size := JSNum.num 1, mimeType := "t"
      , totalChunks := JSNum.num 1, chunkSize := JSNum.num 65536
      , uploadId := some "u", protocolVersion := some (JSNum.num 2)
      , fileChecksum := none, fingerprint := none } none =
      (FinalizeFromStoreResult.success
        { data := [[7]].flatten, mimeType := "t" }
        (deriveFileChecksumFromChunkChecksums fnvHashText ["c0"])
        FinalizeStorageMode.memory,
       { chunks := [[7]], aborted := false }) := by
  have h := (finalizeIncomingTransferFromStore_spec fnvHashText
    { sessions := []
    , chunks := [ { uploadId := "u", chunkIndex := 0, data := [7], checksum := "c0"
                  , size := 1, updatedAt := 0 } ] } "u"
    { id := "u", name := "f", size := JSNum.num 1, mimeType := "t"
    , totalChunks := JSNum.num 1, chunkSize := JSNum.num 65536
    , uploadId := some "u", protocolVersion := some (JSNum.num 2)
    , fileChecksum := none, fingerprint := none } none 1 (by norm_num)).2
    [ { uploadId := "u", chunkIndex := 0, data := [7], checksum := "c0"
      , size := 1, updatedAt := 0 } ] (by decide)
  simpa using h.2 (by simp)

end PeerShare
